import Mathlib

/-!
# Petit2D: sprite batch, shape batch, atlas catalog and binding cache

A shallow embedding of `petit2d.cpp`.

Modelling conventions.

* `int` values are `Int`; the places where the source narrows (`int` to `short`,
  `float` to `short`) do so through `toShort` and `floatToShort`.
* `unsigned char` values and file bytes are `Nat` (a byte is a number below 256).
* `float` values are rational numbers where the source copies them or computes with
  them; NaN and the infinities are outside that part of the model.  Every
  floating-point operation of the source rounds its exact result; the rounding function
  is the parameter `rnd` of the functions that compute with floats (`rnd = id` is exact
  arithmetic).  The point size and the line width, which the source only compares and
  stores, are `FloatValue`s: a rational, an infinity or a NaN.
* The global `g_context` is passed explicitly.  The graphics device is a collaborator:
  the calls issued to it are appended to the field `calls`, and the pointer returned by
  `glMapBufferRange` is an argument of `Begin`.
* The binding cache (the globals of `Texture` and `FrameBuffer`) is passed explicitly
  together with a model of the device state it mirrors: active texture unit, texture
  bound on each unit, bound framebuffer, after the OpenGL specification.
* A catalog file is the list of its bytes, `none` when it cannot be opened.  Objects are
  laid out little-endian; the value of a 32-bit pattern read as a `float` is the
  parameter `floatOfBits` of the functions that read floats from a file
  (`float32OfBits` is the IEEE 754 reading of the finite patterns).
-/

set_option linter.dupNamespace false

namespace Petit2D

/-- A `float` as far as comparisons see it: a NaN, an infinity or a finite value. -/
inductive FloatValue where
  | nan
  | negInf
  | finite (v : ℚ)
  | posInf
  deriving DecidableEq, Repr

/-- The comparison `a < b` of two floats: false as soon as one of them is a NaN. -/
def FloatValue.lt : FloatValue → FloatValue → Bool
  | FloatValue.nan, _ => false
  | _, FloatValue.nan => false
  | FloatValue.negInf, FloatValue.negInf => false
  | FloatValue.negInf, _ => true
  | FloatValue.finite _, FloatValue.negInf => false
  | FloatValue.finite x, FloatValue.finite y => decide (x < y)
  | FloatValue.finite _, FloatValue.posInf => true
  | FloatValue.posInf, _ => false

/-- The comparison `a <= b` of two floats: false as soon as one of them is a NaN. -/
def FloatValue.le : FloatValue → FloatValue → Bool
  | FloatValue.nan, _ => false
  | _, FloatValue.nan => false
  | FloatValue.negInf, _ => true
  | FloatValue.finite _, FloatValue.negInf => false
  | FloatValue.finite x, FloatValue.finite y => decide (x ≤ y)
  | FloatValue.finite _, FloatValue.posInf => true
  | FloatValue.posInf, FloatValue.posInf => true
  | FloatValue.posInf, _ => false

/-- The calls to the graphics device issued by the batches and by the binding
functions.  The arguments that are the same constant at every call site are left out:
the target `GL_ARRAY_BUFFER` of the buffer calls, `GL_TEXTURE_2D` of the texture calls,
`GL_FRAMEBUFFER` and `GL_RENDERBUFFER` of the framebuffer calls, the level and the border
of `glTexImage2D` (its pixel pointer does not matter here).  `activeTexture unit` is
`glActiveTexture(GL_TEXTURE0 + unit)`. -/
inductive GLCall where
  | mapBufferRange (offset length : Int)
  | flushMappedBufferRange (offset length : Int)
  | unmapBuffer
  | drawArraysInstanced (mode : Nat) (first count instancecount : Int)
  | drawArrays (mode : Nat) (first count : Int)
  | pointSize (size : FloatValue)
  | lineWidth (width : FloatValue)
  | activeTexture (unit : Nat)
  | bindTexture (texture : Nat)
  | texImage2D (internalformat : Nat) (width height : Int) (format dataType : Nat)
  | texParameteri (pname param : Nat)
  | deleteTextures (texture : Nat)
  | bindFramebuffer (framebuffer : Nat)
  | deleteFramebuffers (framebuffer : Nat)
  | bindRenderbuffer (renderbuffer : Nat)
  | deleteRenderbuffers (renderbuffer : Nat)
  | renderbufferStorage (width height : Int)
  | framebufferRenderbuffer (renderbuffer : Nat)
  | framebufferTexture2D (texture : Nat)
  | checkFramebufferStatus
  deriving DecidableEq, Repr

/-- The value of the device constant `GL_POINTS`. -/
def GL_POINTS : Nat := 0

/-- The value of the device constant `GL_LINES`. -/
def GL_LINES : Nat := 1

/-- The value of the device constant `GL_LINE_LOOP`. -/
def GL_LINE_LOOP : Nat := 2

/-- The value of the device constant `GL_LINE_STRIP`. -/
def GL_LINE_STRIP : Nat := 3

/-- The value of the device constant `GL_TRIANGLES`. -/
def GL_TRIANGLES : Nat := 4

/-- The value of the device constant `GL_TRIANGLE_STRIP`. -/
def GL_TRIANGLE_STRIP : Nat := 5

/-- The value of the device constant `GL_TRIANGLE_FAN`. -/
def GL_TRIANGLE_FAN : Nat := 6

/-- The conversion of an `int` to `short`: reduction modulo 2^16 into [-32768, 32767]. -/
def toShort (v : Int) : Int := (v + 32768) % 65536 - 32768

/-- The integer part of a `float`: the fractional part is discarded (rounding toward
zero).  The numerator and the denominator of a rational are in lowest terms with a
positive denominator, and `Int.tdiv` is the quotient rounded toward zero. -/
def truncate (x : ℚ) : Int := Int.tdiv x.num x.den

/-- The conversion of a `float` to `short`: the integer part when it fits a `short`.  The
C++ conversion is undefined otherwise, and the result is then `none`: no value is
determined. -/
def floatToShort (x : ℚ) : Option Int :=
  if -32768 ≤ truncate x ∧ truncate x ≤ 32767 then some (truncate x) else none

namespace Sprite

/-- `#define MAX_SPRITES_PER_SPRITE_BATCH 16384` -/
def MAX_SPRITES_PER_SPRITE_BATCH : Int := 16384

/-- `struct Petit2D::Sprite::Sprite` (petit2d.h), with its default member values. -/
structure Sprite where
  x : ℚ := 0
  y : ℚ := 0
  s : ℚ := 0
  t : ℚ := 0
  p : ℚ := 1
  q : ℚ := 1
  r : Nat := 255
  g : Nat := 255
  b : Nat := 255
  a : Nat := 255
  scale_x : ℚ := 1
  scale_y : ℚ := 1
  rotation : ℚ := 0
  width : Int := 0
  height : Int := 0
  deriving DecidableEq

/-- `struct SpriteInstance`: one slot of the instance buffer.  The fields `w`, `h`,
`translation_x` and `translation_y` are `short`; a translation field is `none` when it
was stored by a conversion that C++ leaves undefined. -/
structure SpriteInstance where
  s : ℚ := 0
  t : ℚ := 0
  p : ℚ := 0
  q : ℚ := 0
  rotation : ℚ := 0
  scale_x : ℚ := 0
  scale_y : ℚ := 0
  w : Int := 0
  h : Int := 0
  translation_x : Option Int := some 0
  translation_y : Option Int := some 0
  r : Nat := 0
  g : Nat := 0
  b : Nat := 0
  a : Nat := 0
  deriving DecidableEq

/-- The value of `sizeof(SpriteInstance)`: seven floats, four shorts, four bytes. -/
def sizeofSpriteInstance : Int := 7 * 4 + 4 * 2 + 4 * 1

/-- The memory behind a non-null `storage` pointer, seen as an array of
`SpriteInstance` indexed by slot (`storage[i]`). -/
abbrev Buffer := Int → SpriteInstance

/-- `struct Context` of the sprite batch (the fields the batch operations use) together
with the state of the device: `storage` is `none` for `nullptr`; `mapped` tells whether
the device currently has the buffer mapped; `calls` lists the device calls issued so far,
oldest first. -/
structure Context where
  spriteCount : Int := 0
  maxSprite : Int := 0
  storage : Option Buffer := none
  mapped : Bool := false
  calls : List GLCall := []

/-- The value of `g_context` at program start. -/
def init : Context := {}

/-- `Sprite::Begin`.  `mapping` is what `glMapBufferRange` returns: `none` for a null
pointer, otherwise the mapped memory (whose contents are unspecified, the range being
invalidated). -/
def Begin (c : Context) (mapping : Option Buffer) : Context :=
  let c1 : Context :=
    if c.maxSprite < c.spriteCount then { c with maxSprite := c.spriteCount } else c
  { c1 with
    spriteCount := 0
    storage := mapping
    mapped := if mapping.isSome then true else c1.mapped
    calls := c1.calls ++
      [GLCall.mapBufferRange 0 (sizeofSpriteInstance * MAX_SPRITES_PER_SPRITE_BATCH)] }

/-- `Sprite::Add`.  `M_PI_DIV_180` expands to `3.14f / 180.0f`, so the rotation is
`(sprite.rotation * 3.14f) / 180.0f`: the literal `3.14f` is the rounding of 3.14, the
literal `180.0f` is exactly 180, and the product and the quotient are rounded.  The
translation is the position converted from `float` to `short`. -/
def Add (rnd : ℚ → ℚ) (c : Context) (sprite : Sprite) : Context :=
  match c.storage with
  | none => c
  | some storage =>
    if c.spriteCount ≥ MAX_SPRITES_PER_SPRITE_BATCH then c
    else
      let inst : SpriteInstance :=
        { w := toShort sprite.width
          h := toShort sprite.height
          s := sprite.s
          t := sprite.t
          p := sprite.p
          q := sprite.q
          r := sprite.r
          g := sprite.g
          b := sprite.b
          a := sprite.a
          translation_x := floatToShort sprite.x
          translation_y := floatToShort sprite.y
          rotation := rnd (rnd (sprite.rotation * rnd (157 / 50)) / 180)
          scale_x := sprite.scale_x
          scale_y := sprite.scale_y }
      { c with
        storage := some (Function.update storage c.spriteCount inst)
        spriteCount := c.spriteCount + 1 }

/-- `Sprite::End`: flush the written range, release the mapping.  The pointer
`g_context.storage` is not reset. -/
def End (c : Context) : Context :=
  { c with
    mapped := false
    calls := c.calls ++
      [GLCall.flushMappedBufferRange 0 (sizeofSpriteInstance * c.spriteCount),
       GLCall.unmapBuffer] }

/-- `Sprite::Render`. -/
def Render (c : Context) : Context :=
  if c.spriteCount > 0 then
    { c with calls := c.calls ++ [GLCall.drawArraysInstanced GL_TRIANGLE_STRIP 0 4 c.spriteCount] }
  else c

/-- `Sprite::GetMaxSprites`. -/
def GetMaxSprites (c : Context) : Int := c.maxSprite

/-- One call of the sprite batch interface. -/
inductive Op where
  | Begin (mapping : Option Buffer)
  | Add (sprite : Sprite)
  | End
  | Render

/-- The effect of one call. -/
def step (rnd : ℚ → ℚ) (c : Context) : Op → Context
  | Op.Begin mapping => Begin c mapping
  | Op.Add sprite => Add rnd c sprite
  | Op.End => End c
  | Op.Render => Render c

/-- The effect of a sequence of calls, first call first. -/
def run (rnd : ℚ → ℚ) (c : Context) (ops : List Op) : Context :=
  ops.foldl (step rnd) c

/-- The successive `Add` calls of a list of records, first record first. -/
def addAll (rnd : ℚ → ℚ) (c : Context) (sprites : List Sprite) : Context :=
  sprites.foldl (Add rnd) c

/-- One complete frame: what the mapping request returns and the records added. -/
structure Frame where
  mapping : Option Buffer
  sprites : List Sprite

/-- A complete frame: `Begin`, the `Add` calls, `End`. -/
def runFrame (rnd : ℚ → ℚ) (c : Context) (f : Frame) : Context :=
  End (addAll rnd (Begin c f.mapping) f.sprites)

/-- A sequence of complete frames. -/
def runFrames (rnd : ℚ → ℚ) (c : Context) (fs : List Frame) : Context :=
  fs.foldl (runFrame rnd) c

/-- The counter values observed at the `End` of each frame of a sequence of complete
frames started in `c`, first frame first. -/
def endCounters (rnd : ℚ → ℚ) (c : Context) : List Frame → List Int
  | [] => []
  | f :: fs => (runFrame rnd c f).spriteCount :: endCounters rnd (runFrame rnd c f) fs

/-- The bounds kept by every call: counter and peak stay between 0 and capacity. -/
def Bounded (c : Context) : Prop :=
  0 ≤ c.spriteCount ∧ c.spriteCount ≤ MAX_SPRITES_PER_SPRITE_BATCH ∧
  0 ≤ c.maxSprite ∧ c.maxSprite ≤ MAX_SPRITES_PER_SPRITE_BATCH

end Sprite

end Petit2D


/-! ## Atlas catalog -/

namespace Petit2D.Catalog

/-- `struct Petit2D::Catalog::SpriteDef` (petit2d.h), with its default member values. -/
structure SpriteDef where
  width : Int := 0
  height : Int := 0
  s : ℚ := 0
  t : ℚ := 0
  p : ℚ := 1
  q : ℚ := 1
  deriving DecidableEq

/-- A `std::string`: its characters as unsigned byte values. -/
abbrev Name := List Nat

/-- A `std::map<std::string, SpriteDef>` as a list of entries of pairwise distinct keys.
The source only uses `find`, `insert`, `operator[]` and `clear`, none of which shows the
order of the entries; the list keeps them in insertion order. -/
abbrev SpriteMap := List (Name × SpriteDef)

/-- `std::map::find`, `none` standing for `end()`. -/
def mapFind : SpriteMap → Name → Option SpriteDef
  | [], _ => none
  | (k, v) :: rest, name => if k = name then some v else mapFind rest name

/-- `std::map::insert`: a key already present keeps its value. -/
def mapInsert (m : SpriteMap) (name : Name) (v : SpriteDef) : SpriteMap :=
  match mapFind m name with
  | some _ => m
  | none => m ++ [(name, v)]

/-- `std::map::operator[]`: the value of the key, which is first inserted with a
default-constructed value when absent. -/
def mapIndex (m : SpriteMap) (name : Name) : SpriteDef × SpriteMap :=
  match mapFind m name with
  | some v => (v, m)
  | none => ({}, m ++ [(name, {})])

/-- `struct Catalog`. -/
structure Catalog where
  imageWidth : Int := 0
  imageHeight : Int := 0
  spriteCount : Int := 0
  sprites : SpriteMap := []
  deriving DecidableEq

/-- `Catalog::Create`: a default-constructed catalog. -/
def Create : Catalog := {}

/-- An open `std::ifstream`: the bytes from the read position to the end of the file, and
whether the stream is still good (no read has failed). -/
structure IStream where
  data : List Nat
  good : Bool
  deriving DecidableEq

/-- `istream::read(dst, n)`: the bytes extracted and the stream afterwards.  A stream that
is not good extracts nothing; a read past the end extracts what is left and fails the
stream. -/
def IStream.read (f : IStream) (n : Nat) : List Nat × IStream :=
  if f.good then
    if n ≤ f.data.length then (f.data.take n, { f with data := f.data.drop n })
    else (f.data, { data := [], good := false })
  else ([], f)

/-- The bytes of a destination after `got` was stored at its start: the bytes beyond
the extracted ones keep their old values. -/
def overlay (got old : List Nat) : List Nat := got ++ old.drop got.length

/-- The four bytes of a 32-bit pattern, least significant first. -/
def bytesOfUInt32 (v : Nat) : List Nat :=
  [v % 256, v / 256 % 256, v / 65536 % 256, v / 16777216 % 256]

/-- The four bytes of an `int` (two's complement, little-endian). -/
def bytesOfInt32 (v : Int) : List Nat := bytesOfUInt32 (v % 4294967296).toNat

/-- The 32-bit pattern held by four bytes, least significant first. -/
def uint32OfBytes (b : List Nat) : Nat :=
  b.getD 0 0 + 256 * b.getD 1 0 + 65536 * b.getD 2 0 + 16777216 * b.getD 3 0

/-- The `int` held by four bytes (two's complement, little-endian). -/
def int32OfBytes (b : List Nat) : Int :=
  if uint32OfBytes b < 2147483648 then (uint32OfBytes b : Int)
  else (uint32OfBytes b : Int) - 4294967296

/-- An `int` object after `got` was stored at its start (`got` has at most 4 bytes). -/
def storeInt (old : Int) (got : List Nat) : Int :=
  if got = [] then old else int32OfBytes (overlay got (bytesOfInt32 old))

/-- A `float` object after `got` was stored at its start (`got` has at most 4 bytes).
`floatOfBits` gives the value of a 32-bit pattern read as a `float`; `oldBits` is the
pattern of the old value. -/
def storeFloat (floatOfBits : Nat → ℚ) (old : ℚ) (oldBits : Nat) (got : List Nat) : ℚ :=
  if got = [] then old else floatOfBits (uint32OfBytes (overlay got (bytesOfUInt32 oldBits)))

/-- A default-constructed `SpriteDef` after `got` was stored at its start (`got` has at
most 24 bytes): `width` at offset 0, `height` at 4, `s` at 8, `t` at 12, `p` at 16, `q` at
20.  The pattern of `1.0f` is `0x3F800000`. -/
def storeSpriteDef (floatOfBits : Nat → ℚ) (got : List Nat) : SpriteDef :=
  { width := storeInt 0 (got.take 4)
    height := storeInt 0 ((got.drop 4).take 4)
    s := storeFloat floatOfBits 0 0 ((got.drop 8).take 4)
    t := storeFloat floatOfBits 0 0 ((got.drop 12).take 4)
    p := storeFloat floatOfBits 1 1065353216 ((got.drop 16).take 4)
    q := storeFloat floatOfBits 1 1065353216 ((got.drop 20).take 4) }

/-- `std::string(const char*)` applied to a character array: the characters before the
first NUL. -/
def cstring (chars : List Nat) : Name := chars.takeWhile (fun ch => ch ≠ 0)

/-- The characters of the literal "SPRCAT". -/
def SPRCAT : Name := [83, 80, 82, 67, 65, 84]

/-- The loop of `Catalog::Init`: `count` iterations, each reading a 32-byte name into a
zeroed array and a `SpriteDef` into a default-constructed one, then inserting the pair. -/
def readSprites (floatOfBits : Nat → ℚ) : Nat → IStream → SpriteMap → SpriteMap
  | 0, _, m => m
  | count + 1, f, m =>
    let name := f.read 32
    let spriteDef := name.2.read 24
    readSprites floatOfBits count spriteDef.2
      (mapInsert m (cstring (overlay name.1 (List.replicate 32 0)))
        (storeSpriteDef floatOfBits spriteDef.1))

/-- `Catalog::Init`.  `file` is the content of the file, `none` when it cannot be opened.
The stream is opened at the end, so `tellg()` is the file size; `seekg(std::ios::beg)`
moves to offset 0.  `check` is a zeroed array of 7 characters. -/
def Init (floatOfBits : Nat → ℚ) (catalog : Catalog) (file : Option (List Nat)) : Catalog :=
  match file with
  | none => catalog
  | some bytes =>
    if bytes.length ≤ 6 then catalog
    else
      let check := IStream.read { data := bytes, good := true } 6
      if cstring (overlay check.1 (List.replicate 7 0)) ≠ SPRCAT then catalog
      else
        let w := check.2.read 4
        let h := w.2.read 4
        let n := h.2.read 4
        let spriteCount := storeInt catalog.spriteCount n.1
        { imageWidth := storeInt catalog.imageWidth w.1
          imageHeight := storeInt catalog.imageHeight h.1
          spriteCount := spriteCount
          sprites := readSprites floatOfBits spriteCount.toNat n.2 [] }

/-- `Catalog::Get`: the value returned and the catalog afterwards. -/
def Get (catalog : Catalog) (name : Name) : SpriteDef × Catalog :=
  match mapFind catalog.sprites name with
  | none => ({}, catalog)
  | some _ =>
    ((mapIndex catalog.sprites name).1,
     { catalog with sprites := (mapIndex catalog.sprites name).2 })

/-- `Catalog::Set(catalog, name, sprite, setWidth, setHeight)`: the sprite and the
catalog afterwards.  `spriteDef` is `catalog->sprites[name]`. -/
def Set (catalog : Catalog) (name : Name) (sprite : Sprite.Sprite)
    (setWidth : Bool) (setHeight : Bool) : Sprite.Sprite × Catalog :=
  match mapFind catalog.sprites name with
  | none => (sprite, catalog)
  | some _ =>
    let spriteDef := (mapIndex catalog.sprites name).1
    let catalog1 : Catalog := { catalog with sprites := (mapIndex catalog.sprites name).2 }
    let sprite1 : Sprite.Sprite :=
      if setWidth then { sprite with width := spriteDef.width } else sprite
    let sprite2 : Sprite.Sprite :=
      if setHeight then { sprite1 with height := spriteDef.height } else sprite1
    ({ sprite2 with s := spriteDef.s, t := spriteDef.t, p := spriteDef.p, q := spriteDef.q },
     catalog1)

/-- `Catalog::Set(catalog, name, sprite, width, height)`, the overload taking the size:
the sprite and the catalog afterwards. -/
def SetSize (catalog : Catalog) (name : Name) (sprite : Sprite.Sprite)
    (width : Int) (height : Int) : Sprite.Sprite × Catalog :=
  match mapFind catalog.sprites name with
  | none => (sprite, catalog)
  | some _ =>
    let spriteDef := (mapIndex catalog.sprites name).1
    let catalog1 : Catalog := { catalog with sprites := (mapIndex catalog.sprites name).2 }
    ({ sprite with
        width := width
        height := height
        s := spriteDef.s
        t := spriteDef.t
        p := spriteDef.p
        q := spriteDef.q },
     catalog1)

/-- The glyph appended by `PopulateFontGlyphs` at the loop indices `y` (outer) and `x`
(inner).  `glyphWidth` and `glyphHeight` are `(p - s) / 16.0f` and `(q - t) / 16.0f`,
`fontWidth` and `fontHeight` are the `int` quotients `width / 16` and `height / 16`,
which round toward zero.  The loop indices are converted to `float` exactly. -/
def fontGlyph (rnd : ℚ → ℚ) (spriteDef : SpriteDef) (y x : Nat) : SpriteDef :=
  let glyphWidth := rnd (rnd (spriteDef.p - spriteDef.s) / 16)
  let glyphHeight := rnd (rnd (spriteDef.q - spriteDef.t) / 16)
  let fontWidth := Int.tdiv spriteDef.width 16
  let fontHeight := Int.tdiv spriteDef.height 16
  { width := fontWidth
    height := fontHeight
    s := rnd (spriteDef.s + rnd ((x : ℚ) * glyphWidth))
    t := rnd (spriteDef.t + rnd ((y : ℚ) * glyphHeight))
    p := rnd (spriteDef.s + rnd (rnd ((x : ℚ) * glyphWidth) + glyphWidth))
    q := rnd (spriteDef.t + rnd (rnd ((y : ℚ) * glyphHeight) + glyphHeight)) }

/-- `Catalog::PopulateFontGlyphs`: the vector afterwards.  The outer loop runs `y` from 0
to 15, the inner loop `x` from 0 to 15, each step an `emplace_back`. -/
def PopulateFontGlyphs (rnd : ℚ → ℚ) (glyphs : List SpriteDef) (spriteDef : SpriteDef) :
    List SpriteDef :=
  (List.range 16).foldl
    (fun acc y => (List.range 16).foldl (fun acc2 x => acc2 ++ [fontGlyph rnd spriteDef y x]) acc)
    glyphs

/-- The value of a 32-bit pattern read as a finite `float` (IEEE 754 binary32): sign
bit, 8 exponent bits, 23 fraction bits.  The patterns of exponent 255 (infinities and
NaN) have no rational value and are given the value 0. -/
def float32OfBits (b : Nat) : ℚ :=
  let e := b / 8388608 % 256
  let m := b % 8388608
  let mag : ℚ :=
    if e = 0 then (m : ℚ) / 2 ^ 149
    else if e = 255 then 0
    else ((8388608 + m : Nat) : ℚ) * 2 ^ e / 2 ^ 150
  if b / 2147483648 % 2 = 1 then -mag else mag

/-- One definition of a catalog file as the format describes it: the name (at most 31
characters, none of them NUL), the size, and the bit patterns of the four floats. -/
structure FileEntry where
  name : Name
  width : Int
  height : Int
  s : Nat
  t : Nat
  p : Nat
  q : Nat
  deriving DecidableEq

/-- The 56 bytes of a definition in a catalog file: the name padded with NUL to 32
bytes, then the 24 bytes of the `SpriteDef`. -/
def encodeEntry (e : FileEntry) : List Nat :=
  e.name ++ List.replicate (32 - e.name.length) 0 ++
    (bytesOfInt32 e.width ++ bytesOfInt32 e.height ++
      bytesOfUInt32 e.s ++ bytesOfUInt32 e.t ++ bytesOfUInt32 e.p ++ bytesOfUInt32 e.q)

/-- The bytes of a catalog file: the magic, width, height and count, the definitions. -/
def encodeFile (w h : Int) (entries : List FileEntry) : List Nat :=
  SPRCAT ++ (bytesOfInt32 w ++ bytesOfInt32 h ++ bytesOfInt32 entries.length) ++
    (entries.map encodeEntry).flatten

/-- The `SpriteDef` a file definition stands for. -/
def FileEntry.spriteDef (floatOfBits : Nat → ℚ) (e : FileEntry) : SpriteDef :=
  { width := e.width
    height := e.height
    s := floatOfBits e.s
    t := floatOfBits e.t
    p := floatOfBits e.p
    q := floatOfBits e.q }

/-- An `int` value: a signed 32-bit integer. -/
def IsInt32 (v : Int) : Prop := -2147483648 ≤ v ∧ v < 2147483648

/-- A well-formed name field: at most 31 characters, each a non-NUL byte. -/
def WellFormedName (name : Name) : Prop :=
  name.length ≤ 31 ∧ ∀ ch ∈ name, ch ≠ 0 ∧ ch < 256

/-- A well-formed file definition. -/
def WellFormedEntry (e : FileEntry) : Prop :=
  WellFormedName e.name ∧ IsInt32 e.width ∧ IsInt32 e.height ∧
  e.s < 4294967296 ∧ e.t < 4294967296 ∧ e.p < 4294967296 ∧ e.q < 4294967296

/-- A well-formed catalog file content: 32-bit header fields, well-formed definitions,
pairwise distinct names. -/
def WellFormedFile (w h : Int) (entries : List FileEntry) : Prop :=
  IsInt32 w ∧ IsInt32 h ∧ IsInt32 entries.length ∧
  (∀ e ∈ entries, WellFormedEntry e) ∧ (entries.map FileEntry.name).Nodup

/-- One definition of a catalog file with its raw name field: the 32 bytes of the name
field, which may hold anything after the first NUL, the size, and the bit patterns of the
four floats. -/
structure RawEntry where
  nameField : List Nat
  width : Int
  height : Int
  s : Nat
  t : Nat
  p : Nat
  q : Nat
  deriving DecidableEq

/-- The 56 bytes of a definition with a raw name field. -/
def encodeRawEntry (e : RawEntry) : List Nat :=
  e.nameField ++
    (bytesOfInt32 e.width ++ bytesOfInt32 e.height ++
      bytesOfUInt32 e.s ++ bytesOfUInt32 e.t ++ bytesOfUInt32 e.p ++ bytesOfUInt32 e.q)

/-- The bytes of a catalog file whose definitions have raw name fields; the count of
the header is the number of definitions. -/
def encodeRawFile (w h : Int) (entries : List RawEntry) : List Nat :=
  SPRCAT ++ (bytesOfInt32 w ++ bytesOfInt32 h ++ bytesOfInt32 entries.length) ++
    (entries.map encodeRawEntry).flatten

/-- The name of a definition with a raw name field: the bytes of the field before its
first NUL. -/
def RawEntry.name (e : RawEntry) : Name := cstring e.nameField

/-- The `SpriteDef` a definition with a raw name field stands for. -/
def RawEntry.spriteDef (floatOfBits : Nat → ℚ) (e : RawEntry) : SpriteDef :=
  { width := e.width
    height := e.height
    s := floatOfBits e.s
    t := floatOfBits e.t
    p := floatOfBits e.p
    q := floatOfBits e.q }

/-- A well-formed definition with a raw name field: 32 bytes holding at least one NUL,
32-bit size fields and float patterns. -/
def WellFormedRawEntry (e : RawEntry) : Prop :=
  e.nameField.length = 32 ∧ 0 ∈ e.nameField ∧ (∀ ch ∈ e.nameField, ch < 256) ∧
  IsInt32 e.width ∧ IsInt32 e.height ∧
  e.s < 4294967296 ∧ e.t < 4294967296 ∧ e.p < 4294967296 ∧ e.q < 4294967296

/-- A sample of definitions with raw name fields: "a" twice, with different sizes, the
second time with bytes after the NUL, then "b". -/
def sampleRawEntries : List RawEntry :=
  [ { nameField := [97] ++ List.replicate 31 0, width := 8, height := 16,
      s := 0, t := 0, p := 1056964608, q := 1065353216 },
    { nameField := [97, 0, 120] ++ List.replicate 29 0, width := 4, height := 2,
      s := 1056964608, t := 0, p := 1065353216, q := 1065353216 },
    { nameField := [98] ++ List.replicate 31 0, width := 1, height := 1,
      s := 0, t := 0, p := 1065353216, q := 1065353216 } ]

/-- A sample of well-formed definitions: "a" of size 8 x 16 on the rectangle
(0, 0, 0.5, 1) and "bc" of size 4 x 2 on (0.5, 0, 1, 1). -/
def sampleEntries : List FileEntry :=
  [ { name := [97], width := 8, height := 16, s := 0, t := 0, p := 1056964608, q := 1065353216 },
    { name := [98, 99], width := 4, height := 2, s := 1056964608, t := 0, p := 1065353216,
      q := 1065353216 } ]

/-- A catalog holding one definition that is in no sample file. -/
def sampleCatalog : Catalog :=
  { imageWidth := 7, imageHeight := 9, spriteCount := 1, sprites := [([122], {})] }

end Petit2D.Catalog

/-! ## Shape batch -/

namespace Petit2D.Shape

/-- `#define MAX_VERTICES_PER_SHAPE_BATCH 4096` -/
def MAX_VERTICES_PER_SHAPE_BATCH : Int := 4096

/-- `struct Petit2D::Shape::Vertex` (petit2d.h), with its default member values. -/
structure Vertex where
  x : ℚ := 0
  y : ℚ := 0
  r : Nat := 255
  g : Nat := 255
  b : Nat := 255
  a : Nat := 255
  deriving DecidableEq

/-- The value of `sizeof(Vertex)`: two floats, four bytes. -/
def sizeofVertex : Int := 2 * 4 + 4 * 1

/-- The memory behind a non-null `storage` pointer, seen as an array of `Vertex` indexed
by slot (`storage[i]`). -/
abbrev Buffer := Int → Vertex

/-- `struct Context` of the shape batch (the fields the batch operations use) together
with the state of the device: `storage` is `none` for `nullptr`; `mapped` tells whether
the device currently has the buffer mapped; `calls` lists the device calls issued so far,
oldest first. -/
structure Context where
  verticesCount : Int := 0
  maxVertices : Int := 0
  pointSize : FloatValue := FloatValue.finite 1
  lineWidth : FloatValue := FloatValue.finite 1
  storage : Option Buffer := none
  mapped : Bool := false
  calls : List GLCall := []

/-- The value of `g_context` at program start. -/
def init : Context := {}

/-- `Shape::SetPointSize`.  The tests are `size < 0` and `size > 32`, the second on the
value left by the first. -/
def SetPointSize (c : Context) (size : FloatValue) : Context :=
  let size1 := if size.lt (FloatValue.finite 0) then FloatValue.finite 0 else size
  let size2 := if (FloatValue.finite 32).lt size1 then FloatValue.finite 32 else size1
  { c with pointSize := size2, calls := c.calls ++ [GLCall.pointSize size2] }

/-- `Shape::GetPointSize`. -/
def GetPointSize (c : Context) : FloatValue := c.pointSize

/-- `Shape::SetLineWidth`.  The tests are `width < 0` and `width > 32`, the second on the
value left by the first. -/
def SetLineWidth (c : Context) (width : FloatValue) : Context :=
  let width1 := if width.lt (FloatValue.finite 0) then FloatValue.finite 0 else width
  let width2 := if (FloatValue.finite 32).lt width1 then FloatValue.finite 32 else width1
  { c with lineWidth := width2, calls := c.calls ++ [GLCall.lineWidth width2] }

/-- `Shape::GetLineWidth`. -/
def GetLineWidth (c : Context) : FloatValue := c.lineWidth

/-- `Shape::Begin`.  `mapping` is what `glMapBufferRange` returns: `none` for a null
pointer, otherwise the mapped memory. -/
def Begin (c : Context) (mapping : Option Buffer) : Context :=
  let c1 : Context :=
    if c.maxVertices < c.verticesCount then { c with maxVertices := c.verticesCount } else c
  { c1 with
    verticesCount := 0
    storage := mapping
    mapped := if mapping.isSome then true else c1.mapped
    calls := c1.calls ++
      [GLCall.mapBufferRange 0 (sizeofVertex * MAX_VERTICES_PER_SHAPE_BATCH)] }

/-- `Shape::Add`. -/
def Add (c : Context) (vertex : Vertex) : Context :=
  match c.storage with
  | none => c
  | some storage =>
    if c.verticesCount ≥ MAX_VERTICES_PER_SHAPE_BATCH then c
    else
      let index := c.verticesCount
      let slot : Vertex :=
        { storage index with
          x := vertex.x
          y := vertex.y
          r := vertex.r
          g := vertex.g
          b := vertex.b
          a := vertex.a }
      { c with
        storage := some (Function.update storage index slot)
        verticesCount := c.verticesCount + 1 }

/-- `Shape::End`: flush the written range, release the mapping.  The pointer
`g_context.storage` is not reset. -/
def End (c : Context) : Context :=
  { c with
    mapped := false
    calls := c.calls ++
      [GLCall.flushMappedBufferRange 0 (sizeofVertex * c.verticesCount),
       GLCall.unmapBuffer] }

/-- `Petit2D::getDrawType`, on the integer value of the `DrawType` argument: `POINTS` is
0, `LINES` 1, `LINE_STRIP` 2, `LINE_LOOP` 3, `TRIANGLES` 4, `TRIANGLES_STRIP` 5,
`TRIANGLES_FAN` 6; the `default` label shares the branch of `POINTS`. -/
def getDrawType (drawType : Int) : Nat :=
  if drawType = 1 then GL_LINES
  else if drawType = 2 then GL_LINE_STRIP
  else if drawType = 3 then GL_LINE_LOOP
  else if drawType = 4 then GL_TRIANGLES
  else if drawType = 5 then GL_TRIANGLE_STRIP
  else if drawType = 6 then GL_TRIANGLE_FAN
  else GL_POINTS

/-- `Shape::Render`. -/
def Render (c : Context) (drawType : Int) : Context :=
  if c.verticesCount > 0 then
    { c with calls := c.calls ++ [GLCall.drawArrays (getDrawType drawType) 0 c.verticesCount] }
  else c

/-- `Shape::GetMaxVertices`. -/
def GetMaxVertices (c : Context) : Int := c.maxVertices

/-- The successive `Add` calls of a list of vertices, first vertex first. -/
def addAll (c : Context) (vertices : List Vertex) : Context :=
  vertices.foldl Add c

end Petit2D.Shape

/-! ## Device binding cache -/

namespace Petit2D

/-- The state of the graphics device that the binding functions depend on, as the OpenGL
specification describes it: the active texture unit (initially unit 0), the texture
bound to `GL_TEXTURE_2D` on each unit and the framebuffer bound to `GL_FRAMEBUFFER`
(initially 0).  `written` lists, oldest first, the texture that each `glTexImage2D` and
`glTexParameteri` call acted on; `calls` lists the calls issued, oldest first. -/
structure Device where
  activeUnit : Nat := 0
  boundTexture : Nat → Nat := fun _ => 0
  boundFramebuffer : Nat := 0
  written : List Nat := []
  calls : List GLCall := []

/-- The effect of a call on the device, after the OpenGL specification.
`glActiveTexture` selects the unit that the texture calls act on; `glBindTexture` binds
on the active unit; `glTexImage2D` and `glTexParameteri` act on the texture bound on the
active unit; deleting a texture or a framebuffer that is bound reverts the binding
to 0.  The other calls leave the tracked state as it is. -/
def Device.issue (d : Device) (call : GLCall) : Device :=
  match call with
  | GLCall.activeTexture unit =>
    { d with activeUnit := unit, calls := d.calls ++ [call] }
  | GLCall.bindTexture texture =>
    { d with
      boundTexture := Function.update d.boundTexture d.activeUnit texture
      calls := d.calls ++ [call] }
  | GLCall.texImage2D _ _ _ _ _ =>
    { d with written := d.written ++ [d.boundTexture d.activeUnit], calls := d.calls ++ [call] }
  | GLCall.texParameteri _ _ =>
    { d with written := d.written ++ [d.boundTexture d.activeUnit], calls := d.calls ++ [call] }
  | GLCall.deleteTextures texture =>
    { d with
      boundTexture := fun unit => if d.boundTexture unit = texture then 0 else d.boundTexture unit
      calls := d.calls ++ [call] }
  | GLCall.bindFramebuffer framebuffer =>
    { d with boundFramebuffer := framebuffer, calls := d.calls ++ [call] }
  | GLCall.deleteFramebuffers framebuffer =>
    { d with
      boundFramebuffer := if d.boundFramebuffer = framebuffer then 0 else d.boundFramebuffer
      calls := d.calls ++ [call] }
  | _ => { d with calls := d.calls ++ [call] }

/-- The globals of the binding cache together with the device: `texture` is
`Texture::g_context.texture` (indexed by unit), `frameBuffer` is
`FrameBuffer::g_context.frameBuffer`. -/
structure BindingState where
  texture : Nat → Nat := fun _ => 0
  frameBuffer : Nat := 0
  device : Device := {}

/-- The state at program start. -/
def BindingState.init : BindingState := {}

/-- A device call issued from a state. -/
def BindingState.gl (s : BindingState) (call : GLCall) : BindingState :=
  { s with device := s.device.issue call }

/-- The value of the device constant `GL_TEXTURE_MAG_FILTER`. -/
def GL_TEXTURE_MAG_FILTER : Nat := 10240

/-- The value of the device constant `GL_TEXTURE_MIN_FILTER`. -/
def GL_TEXTURE_MIN_FILTER : Nat := 10241

/-- The value of the device constant `GL_TEXTURE_WRAP_S`. -/
def GL_TEXTURE_WRAP_S : Nat := 10242

/-- The value of the device constant `GL_TEXTURE_WRAP_T`. -/
def GL_TEXTURE_WRAP_T : Nat := 10243

/-- The value of the device constant `GL_NEAREST`. -/
def GL_NEAREST : Nat := 9728

/-- The value of the device constant `GL_LINEAR`. -/
def GL_LINEAR : Nat := 9729

/-- The value of the device constant `GL_REPEAT`. -/
def GL_REPEAT : Nat := 10497

/-- The value of the device constant `GL_CLAMP_TO_EDGE`. -/
def GL_CLAMP_TO_EDGE : Nat := 33071

/-- The value of the device constant `GL_RGBA8`. -/
def GL_RGBA8 : Nat := 32856

/-- The value of the device constant `GL_RGBA`. -/
def GL_RGBA : Nat := 6408

/-- The value of the device constant `GL_UNSIGNED_BYTE`. -/
def GL_UNSIGNED_BYTE : Nat := 5121

/-- The conversion of an `int` enumeration value to `GLenum` (`unsigned int`). -/
def toGLenum (v : Int) : Nat := (v % 4294967296).toNat

/-- `Petit2D::getTextureFilter`: `NEAREST` is 0, `LINEAR` is 1, the `default` label
shares the branch of `NEAREST`. -/
def getTextureFilter (filter : Int) : Nat :=
  if filter = 1 then GL_LINEAR else GL_NEAREST

/-- `Petit2D::getTextureWrap`: `CLAMP` is 0, `REPEAT` is 1. -/
def getTextureWrap (wrap : Int) : Nat :=
  if wrap = 1 then GL_REPEAT
  else if wrap = 0 then GL_CLAMP_TO_EDGE
  else toGLenum wrap

/-- `Petit2D::getInternalFormat`: `RGBA8` is 0. -/
def getInternalFormat (format : Int) : Nat :=
  if format = 0 then GL_RGBA8 else toGLenum format

/-- `Petit2D::getFormat`: `RGBA` is 0. -/
def getFormat (format : Int) : Nat :=
  if format = 0 then GL_RGBA else toGLenum format

/-- `Petit2D::getDataType`: `UNSIGNED_BYTE` is 0. -/
def getDataType (dataType : Int) : Nat :=
  if dataType = 0 then GL_UNSIGNED_BYTE else toGLenum dataType

namespace Texture

/-- `struct Texture`. -/
structure Texture where
  id : Nat := 0
  width : Int := 0
  height : Int := 0
  deriving DecidableEq

/-- The test that opens `Texture::Init`, `SetWrap` and `SetFilter`: bind the texture on
unit 0 unless the cache holds its id for unit 0. -/
def bindOnUnit0 (s : BindingState) (texture : Texture) : BindingState :=
  if s.texture 0 ≠ texture.id then
    { ((s.gl (GLCall.activeTexture 0)).gl (GLCall.bindTexture texture.id)) with
      texture := Function.update s.texture 0 texture.id }
  else s

/-- `Texture::Destroy`, `none` standing for a null pointer. -/
def Destroy (s : BindingState) (texture : Option Texture) : BindingState :=
  match texture with
  | none => s
  | some t => s.gl (GLCall.deleteTextures t.id)

/-- `Texture::Init(texture, filename)`.  `image` is what `stbi_load` returns: `none` for a
null pointer, otherwise the width and the height of the decoded image. -/
def InitFile (s : BindingState) (texture : Texture) (image : Option (Int × Int)) :
    BindingState × Texture :=
  match image with
  | none => (s, texture)
  | some (width, height) =>
    ((bindOnUnit0 s texture).gl
        (GLCall.texImage2D GL_RGBA8 width height GL_RGBA GL_UNSIGNED_BYTE),
     { texture with width := width, height := height })

/-- `Texture::Init(texture, width, height, internalFormat, format, type, pixels)`. -/
def Init (s : BindingState) (texture : Texture) (width height : Int)
    (internalFormat format dataType : Int) : BindingState × Texture :=
  ((bindOnUnit0 s texture).gl
      (GLCall.texImage2D (getInternalFormat internalFormat) width height (getFormat format)
        (getDataType dataType)),
   { texture with width := width, height := height })

/-- `Texture::SetWrap`. -/
def SetWrap (s : BindingState) (texture : Texture) (wrapS wrapT : Int) : BindingState :=
  ((bindOnUnit0 s texture).gl (GLCall.texParameteri GL_TEXTURE_WRAP_S (getTextureWrap wrapS))).gl
    (GLCall.texParameteri GL_TEXTURE_WRAP_T (getTextureWrap wrapT))

/-- `Texture::SetFilter`. -/
def SetFilter (s : BindingState) (texture : Texture) (min mag : Int) : BindingState :=
  ((bindOnUnit0 s texture).gl
      (GLCall.texParameteri GL_TEXTURE_MIN_FILTER (getTextureFilter min))).gl
    (GLCall.texParameteri GL_TEXTURE_MAG_FILTER (getTextureFilter mag))

end Texture

namespace FrameBuffer

/-- `struct FrameBuffer`. -/
structure FrameBuffer where
  frameBufferId : Nat
  renderBufferId : Nat
  deriving DecidableEq

/-- `FrameBuffer::Destroy`, `none` standing for a null pointer. -/
def Destroy (s : BindingState) (frameBuffer : Option FrameBuffer) : BindingState :=
  match frameBuffer with
  | none => s
  | some fb =>
    (s.gl (GLCall.deleteFramebuffers fb.frameBufferId)).gl
      (GLCall.deleteRenderbuffers fb.renderBufferId)

/-- `FrameBuffer::Init`. -/
def Init (s : BindingState) (frameBuffer : FrameBuffer) (texture : Texture.Texture) :
    BindingState :=
  let s1 := s.gl (GLCall.bindRenderbuffer frameBuffer.renderBufferId)
  let s2 := s1.gl (GLCall.renderbufferStorage texture.width texture.height)
  let s3 := s2.gl (GLCall.bindFramebuffer frameBuffer.frameBufferId)
  let s4 := s3.gl (GLCall.framebufferRenderbuffer frameBuffer.renderBufferId)
  let s5 := s4.gl (GLCall.framebufferTexture2D texture.id)
  let s6 := s5.gl GLCall.checkFramebufferStatus
  { s6 with frameBuffer := frameBuffer.frameBufferId }

end FrameBuffer

/-- `Petit2D::SetFrameBuffer`, `none` standing for a null pointer. -/
def SetFrameBuffer (s : BindingState) (frameBuffer : Option FrameBuffer.FrameBuffer) :
    BindingState :=
  match frameBuffer with
  | none =>
    if s.frameBuffer ≠ 0 then { (s.gl (GLCall.bindFramebuffer 0)) with frameBuffer := 0 }
    else s
  | some fb =>
    if s.frameBuffer ≠ fb.frameBufferId then
      { (s.gl (GLCall.bindFramebuffer fb.frameBufferId)) with frameBuffer := fb.frameBufferId }
    else s

/-- `Petit2D::SetTexture`.  `unit` is the value of the `TextureUnit` argument, 0 to 3 for
`UNIT_0` to `UNIT_3`. -/
def SetTexture (s : BindingState) (texture : Texture.Texture) (unit : Nat) : BindingState :=
  if s.texture unit ≠ texture.id then
    { ((s.gl (GLCall.activeTexture unit)).gl (GLCall.bindTexture texture.id)) with
      texture := Function.update s.texture unit texture.id }
  else s

/-- The cache agrees with the device: the cached texture id of each of the four units
is the id of the texture the device has bound on that unit, and the cached framebuffer
id is the id of the framebuffer the device has bound. -/
def CacheConsistent (s : BindingState) : Prop :=
  (∀ unit : Nat, unit < 4 → s.texture unit = s.device.boundTexture unit) ∧
  s.frameBuffer = s.device.boundFramebuffer

end Petit2D
/-! ## Sprite batch: lemmas -/

namespace Petit2D.Sprite

theorem truncate_of_nonneg (x : ℚ) (h : 0 ≤ x) : truncate x = ⌊x⌋ := by
  unfold truncate
  rw [Int.tdiv_eq_ediv (Rat.num_nonneg.mpr h) (Int.ofNat_nonneg _)]
  exact (Rat.floor_def' x).symm

theorem truncate_neg (x : ℚ) : truncate (-x) = -truncate x := by
  unfold truncate
  rw [Rat.neg_num, Rat.neg_den, Int.neg_tdiv]

theorem truncate_of_nonpos (x : ℚ) (h : x ≤ 0) : truncate x = ⌈x⌉ := by
  have h1 := truncate_of_nonneg (-x) (by linarith)
  rw [truncate_neg] at h1
  have h2 : ⌈x⌉ = -⌊-x⌋ := by rw [← Int.ceil_neg, neg_neg]
  rw [h2, ← h1, neg_neg]

/-- The integer part of a `float`: the floor of a non-negative value, the ceiling of a
negative one. -/
theorem truncate_eq (x : ℚ) : truncate x = if 0 ≤ x then ⌊x⌋ else ⌈x⌉ := by
  split
  · rename_i h
    exact truncate_of_nonneg x h
  · rename_i h
    exact truncate_of_nonpos x (le_of_lt (not_le.mp h))

/-- The conversion of a `float` to `short` is defined exactly for the values strictly
between -32769 and 32768, where it is the value rounded toward zero. -/
theorem floatToShort_eq (x : ℚ) :
    floatToShort x =
      if -32769 < x ∧ x < 32768 then some (if 0 ≤ x then ⌊x⌋ else ⌈x⌉) else none := by
  unfold floatToShort
  rw [truncate_eq]
  have hiff : (-32768 ≤ (if 0 ≤ x then ⌊x⌋ else ⌈x⌉) ∧ (if 0 ≤ x then ⌊x⌋ else ⌈x⌉) ≤ 32767) ↔
      (-32769 < x ∧ x < 32768) := by
    by_cases h0 : 0 ≤ x
    · rw [if_pos h0]
      have h1 : ⌊x⌋ ≤ 32767 ↔ x < 32768 := by
        rw [← Int.lt_add_one_iff, Int.floor_lt]
        norm_num
      have h2 : (-32768 : Int) ≤ ⌊x⌋ := by
        rw [Int.le_floor]
        push_cast
        linarith
      constructor
      · intro h
        exact ⟨by linarith, h1.mp h.2⟩
      · intro h
        exact ⟨h2, h1.mpr h.2⟩
    · rw [if_neg h0]
      have hneg : x < 0 := not_le.mp h0
      have h1 : (-32768 : Int) ≤ ⌈x⌉ ↔ -32769 < x := by
        have h3 : (-32768 : Int) ≤ ⌈x⌉ ↔ (-32769 : Int) < ⌈x⌉ := by omega
        rw [h3, Int.lt_ceil]
        norm_num
      have h2 : ⌈x⌉ ≤ (32767 : Int) := by
        rw [Int.ceil_le]
        push_cast
        linarith
      constructor
      · intro h
        exact ⟨h1.mp h.1, by linarith⟩
      · intro h
        exact ⟨h1.mpr h.1, h2⟩
  by_cases hr : -32769 < x ∧ x < 32768
  · rw [if_pos hr, if_pos (hiff.mpr hr)]
  · rw [if_neg hr, if_neg (fun h => hr (hiff.mp h))]

theorem Add_calls (rnd : ℚ → ℚ) (c : Context) (r : Sprite) :
    (Add rnd c r).calls = c.calls := by
  unfold Add
  split
  · rfl
  · split <;> rfl

theorem Add_mapped (rnd : ℚ → ℚ) (c : Context) (r : Sprite) :
    (Add rnd c r).mapped = c.mapped := by
  unfold Add
  split
  · rfl
  · split <;> rfl

theorem Add_maxSprite (rnd : ℚ → ℚ) (c : Context) (r : Sprite) :
    (Add rnd c r).maxSprite = c.maxSprite := by
  unfold Add
  split
  · rfl
  · split <;> rfl

theorem Add_of_null (rnd : ℚ → ℚ) (c : Context) (r : Sprite) (h : c.storage = none) :
    Add rnd c r = c := by
  unfold Add
  rw [h]

theorem Add_of_full (rnd : ℚ → ℚ) (c : Context) (r : Sprite)
    (h : MAX_SPRITES_PER_SPRITE_BATCH ≤ c.spriteCount) : Add rnd c r = c := by
  unfold Add
  split
  · rfl
  · rw [if_pos h]

theorem Add_storage_isSome (rnd : ℚ → ℚ) (c : Context) (r : Sprite) :
    (Add rnd c r).storage.isSome = c.storage.isSome := by
  unfold Add
  split
  · rfl
  · rename_i st hst
    split
    · rfl
    · simp [hst]

theorem Add_spriteCount (rnd : ℚ → ℚ) (c : Context) (r : Sprite) :
    (Add rnd c r).spriteCount =
      if c.storage.isSome ∧ c.spriteCount < MAX_SPRITES_PER_SPRITE_BATCH
      then c.spriteCount + 1 else c.spriteCount := by
  unfold Add
  split
  · rename_i hst
    simp [hst]
  · rename_i st hst
    by_cases h : c.spriteCount ≥ MAX_SPRITES_PER_SPRITE_BATCH
    · rw [if_pos h, if_neg]
      rintro ⟨_, h2⟩
      exact absurd h (not_le.mpr h2)
    · rw [if_neg h, if_pos]
      exact ⟨by simp [hst], not_le.mp h⟩

theorem addAll_nil (rnd : ℚ → ℚ) (c : Context) : addAll rnd c [] = c := rfl

theorem addAll_cons (rnd : ℚ → ℚ) (c : Context) (r : Sprite) (rs : List Sprite) :
    addAll rnd c (r :: rs) = addAll rnd (Add rnd c r) rs := rfl

theorem addAll_calls (rnd : ℚ → ℚ) (rs : List Sprite) :
    ∀ c : Context, (addAll rnd c rs).calls = c.calls := by
  induction rs with
  | nil => intro c; rfl
  | cons r rs ih => intro c; rw [addAll_cons, ih, Add_calls]

theorem addAll_mapped (rnd : ℚ → ℚ) (rs : List Sprite) :
    ∀ c : Context, (addAll rnd c rs).mapped = c.mapped := by
  induction rs with
  | nil => intro c; rfl
  | cons r rs ih => intro c; rw [addAll_cons, ih, Add_mapped]

theorem addAll_maxSprite (rnd : ℚ → ℚ) (rs : List Sprite) :
    ∀ c : Context, (addAll rnd c rs).maxSprite = c.maxSprite := by
  induction rs with
  | nil => intro c; rfl
  | cons r rs ih => intro c; rw [addAll_cons, ih, Add_maxSprite]

theorem addAll_of_null (rnd : ℚ → ℚ) (rs : List Sprite) :
    ∀ c : Context, c.storage = none → addAll rnd c rs = c := by
  induction rs with
  | nil => intro c _; rfl
  | cons r rs ih =>
    intro c h
    rw [addAll_cons, Add_of_null rnd c r h]
    exact ih c h

/-- The counter after a run of `Add` calls on a mapped buffer saturates at capacity. -/
theorem addAll_spriteCount (rnd : ℚ → ℚ) (rs : List Sprite) :
    ∀ c : Context, c.storage.isSome = true →
      c.spriteCount ≤ MAX_SPRITES_PER_SPRITE_BATCH →
      (addAll rnd c rs).spriteCount =
        min (c.spriteCount + rs.length) MAX_SPRITES_PER_SPRITE_BATCH := by
  induction rs with
  | nil =>
    intro c _ hle
    simp [addAll_nil, hle]
  | cons r rs ih =>
    intro c hs hle
    have hs1 : (Add rnd c r).storage.isSome = true := by rw [Add_storage_isSome]; exact hs
    have hc := Add_spriteCount rnd c r
    unfold MAX_SPRITES_PER_SPRITE_BATCH at *
    by_cases hlt : c.spriteCount < 16384
    · rw [if_pos ⟨hs, hlt⟩] at hc
      rw [addAll_cons, ih _ hs1 (by rw [hc]; omega), hc]
      simp only [List.length_cons, Nat.cast_add, Nat.cast_one]
      congr 1
      ring
    · rw [if_neg (fun h => hlt h.2)] at hc
      rw [addAll_cons, ih _ hs1 (by rw [hc]; exact hle), hc]
      simp only [List.length_cons, Nat.cast_add, Nat.cast_one]
      omega

theorem Add_of_room (rnd : ℚ → ℚ) (c : Context) (r : Sprite) (buf : Buffer)
    (hs : c.storage = some buf) (hlt : c.spriteCount < MAX_SPRITES_PER_SPRITE_BATCH) :
    Add rnd c r =
      { c with
        storage := some (Function.update buf c.spriteCount
          { w := toShort r.width
            h := toShort r.height
            s := r.s
            t := r.t
            p := r.p
            q := r.q
            r := r.r
            g := r.g
            b := r.b
            a := r.a
            translation_x := floatToShort r.x
            translation_y := floatToShort r.y
            rotation := rnd (rnd (r.rotation * rnd (157 / 50)) / 180)
            scale_x := r.scale_x
            scale_y := r.scale_y })
        spriteCount := c.spriteCount + 1 } := by
  unfold Add
  rw [hs]
  simp only
  rw [if_neg (not_le.mpr hlt)]

/-- The slots written by a run of `Add` calls that fits in the buffer: record `i` of the
run lands in slot `spriteCount + i`, every other slot keeps its contents. -/
theorem addAll_storage (rnd : ℚ → ℚ) (rs : List Sprite) :
    ∀ (c : Context) (buf : Buffer), c.storage = some buf →
      c.spriteCount + rs.length ≤ MAX_SPRITES_PER_SPRITE_BATCH →
      ∃ mem : Buffer, (addAll rnd c rs).storage = some mem ∧
        (∀ (i : Nat) (h : i < rs.length), mem (c.spriteCount + i) =
          { w := toShort rs[i].width
            h := toShort rs[i].height
            s := rs[i].s
            t := rs[i].t
            p := rs[i].p
            q := rs[i].q
            r := rs[i].r
            g := rs[i].g
            b := rs[i].b
            a := rs[i].a
            translation_x := floatToShort rs[i].x
            translation_y := floatToShort rs[i].y
            rotation := rnd (rnd (rs[i].rotation * rnd (157 / 50)) / 180)
            scale_x := rs[i].scale_x
            scale_y := rs[i].scale_y }) ∧
        (∀ j : Int, (j < c.spriteCount ∨ c.spriteCount + rs.length ≤ j) → mem j = buf j) := by
  induction rs with
  | nil =>
    intro c buf hs _
    exact ⟨buf, hs, fun i h => absurd h (Nat.not_lt_zero i), fun _ _ => rfl⟩
  | cons r rs ih =>
    intro c buf hs hle
    simp only [List.length_cons, Nat.cast_add, Nat.cast_one] at hle
    have hlt : c.spriteCount < MAX_SPRITES_PER_SPRITE_BATCH := by omega
    have hA := Add_of_room rnd c r buf hs hlt
    obtain ⟨mem, hm, hin, hout⟩ := ih (Add rnd c r) _ (by rw [hA]) (by rw [hA]; simp only; omega)
    rw [hA] at hin hout
    simp only at hin hout
    refine ⟨mem, by rw [addAll_cons]; exact hm, ?_, ?_⟩
    · intro i h
      cases i with
      | zero =>
        simp only [Nat.cast_zero, add_zero, List.getElem_cons_zero]
        rw [hout c.spriteCount (Or.inl (by omega)), Function.update_same]
      | succ k =>
        have hk : k < rs.length := by simpa using h
        have := hin k hk
        simp only [List.getElem_cons_succ, Nat.cast_add, Nat.cast_one]
        rw [← this]
        congr 1
        ring
    · intro j hj
      simp only [List.length_cons, Nat.cast_add, Nat.cast_one] at hj
      rw [hout j (by omega), Function.update_noteq (by omega)]

theorem Bounded_init : Bounded init := by
  unfold Bounded init MAX_SPRITES_PER_SPRITE_BATCH
  simp

theorem Bounded_step (rnd : ℚ → ℚ) (c : Context) (op : Op) (h : Bounded c) :
    Bounded (step rnd c op) := by
  unfold Bounded MAX_SPRITES_PER_SPRITE_BATCH at *
  obtain ⟨h1, h2, h3, h4⟩ := h
  cases op with
  | Begin mapping =>
    simp only [step, Begin]
    split <;> simp <;> omega
  | Add sprite =>
    simp only [step]
    rw [Add_spriteCount, Add_maxSprite]
    unfold MAX_SPRITES_PER_SPRITE_BATCH
    split <;> omega
  | End => exact ⟨h1, h2, h3, h4⟩
  | Render =>
    simp only [step, Render]
    split <;> exact ⟨h1, h2, h3, h4⟩

theorem run_nil (rnd : ℚ → ℚ) (c : Context) : run rnd c [] = c := rfl

theorem run_cons (rnd : ℚ → ℚ) (c : Context) (op : Op) (ops : List Op) :
    run rnd c (op :: ops) = run rnd (step rnd c op) ops := rfl

theorem run_append (rnd : ℚ → ℚ) (c : Context) (ops ops2 : List Op) :
    run rnd c (ops ++ ops2) = run rnd (run rnd c ops) ops2 := by
  unfold run
  rw [List.foldl_append]

theorem Bounded_run (rnd : ℚ → ℚ) (ops : List Op) :
    ∀ c : Context, Bounded c → Bounded (run rnd c ops) := by
  induction ops with
  | nil => intro c h; exact h
  | cons op ops ih => intro c h; exact ih _ (Bounded_step rnd c op h)

theorem step_maxSprite_le (rnd : ℚ → ℚ) (c : Context) (op : Op) :
    c.maxSprite ≤ (step rnd c op).maxSprite := by
  cases op with
  | Begin mapping =>
    simp only [step, Begin]
    split
    · rename_i h; exact le_of_lt h
    · exact le_refl _
  | Add sprite => simp only [step]; rw [Add_maxSprite]
  | End => exact le_refl _
  | Render =>
    simp only [step, Render]
    split <;> exact le_refl _

theorem run_maxSprite_le (rnd : ℚ → ℚ) (ops : List Op) :
    ∀ c : Context, c.maxSprite ≤ (run rnd c ops).maxSprite := by
  induction ops with
  | nil => intro c; exact le_refl _
  | cons op ops ih => intro c; exact le_trans (step_maxSprite_le rnd c op) (ih _)

end Petit2D.Sprite

/-! ## Sprite batch: claims -/

namespace Petit2D.Sprite

theorem Begin_spriteCount (c : Context) (mapping : Option Buffer) :
    (Begin c mapping).spriteCount = 0 := by
  unfold Begin
  split <;> rfl

theorem Begin_storage (c : Context) (mapping : Option Buffer) :
    (Begin c mapping).storage = mapping := by
  unfold Begin
  split <;> rfl

theorem Begin_maxSprite (c : Context) (mapping : Option Buffer) :
    (Begin c mapping).maxSprite = max c.maxSprite c.spriteCount := by
  unfold Begin
  split
  · rename_i h
    simp only
    rw [max_eq_right (le_of_lt h)]
  · rename_i h
    simp only
    rw [max_eq_left (not_lt.mp h)]

/-- C1. After a `Begin` that obtained a mapped buffer, `n` calls of `Add` with
`n ≤ 16384` and `End`, `Render` issues no device call when `n = 0` and otherwise exactly
one call: an instanced draw of 4 vertices with instance count `n`. -/
theorem C1_render_one_instanced_draw (rnd : ℚ → ℚ) (c : Context) (buf : Buffer)
    (rs : List Sprite) (hn : (rs.length : Int) ≤ MAX_SPRITES_PER_SPRITE_BATCH) :
    (Render (End (addAll rnd (Begin c (some buf)) rs))).calls =
      if rs = [] then (End (addAll rnd (Begin c (some buf)) rs)).calls
      else (End (addAll rnd (Begin c (some buf)) rs)).calls ++
        [GLCall.drawArraysInstanced GL_TRIANGLE_STRIP 0 4 rs.length] := by
  have hcount : (End (addAll rnd (Begin c (some buf)) rs)).spriteCount = rs.length := by
    show (addAll rnd (Begin c (some buf)) rs).spriteCount = rs.length
    rw [addAll_spriteCount rnd rs _ (by rw [Begin_storage]; rfl)
      (by rw [Begin_spriteCount]; decide), Begin_spriteCount, zero_add]
    exact min_eq_left hn
  unfold Render
  rw [hcount]
  cases rs with
  | nil => simp
  | cons r rs =>
    have hpos : ((r :: rs).length : Int) > 0 := by
      simp only [List.length_cons, Nat.cast_add, Nat.cast_one]
      omega
    rw [if_pos hpos, if_neg (List.cons_ne_nil r rs)]

/-- Witness of C1: two records added to a fresh batch give one draw of two instances. -/
theorem C1_render_one_instanced_draw_witness :
    (((([{}, {}] : List Sprite).length : Nat) : Int) ≤ MAX_SPRITES_PER_SPRITE_BATCH) ∧
    (Render (End (addAll id (Begin init (some (fun _ => {}))) [{}, {}]))).calls =
      (End (addAll id (Begin init (some (fun _ => {}))) [{}, {}])).calls ++
        [GLCall.drawArraysInstanced GL_TRIANGLE_STRIP 0 4 2] :=
  ⟨by decide, C1_render_one_instanced_draw id init (fun _ => {}) [{}, {}] (by decide)⟩

/-- C2. After a successful `Begin`, a run of `n ≤ 16384` calls of `Add` leaves record
`i` packed in slot `i` for every `i < n`: texture rectangle, scale and colour bytes are
copied unchanged, width and height are narrowed to `short`, and the translation is the
position converted to `short`, that is the position rounded toward zero when it lies
strictly between -32769 and 32768 (the conversion is undefined elsewhere and the field
is then not determined).  Slots outside `0 .. n-1` keep their contents, and one more
`Add` leaves the `n` written slots as they are. -/
theorem C2_slots_in_insertion_order (rnd : ℚ → ℚ) (c : Context) (buf : Buffer)
    (rs : List Sprite) (hn : (rs.length : Int) ≤ MAX_SPRITES_PER_SPRITE_BATCH) :
    (∃ mem : Buffer, (addAll rnd (Begin c (some buf)) rs).storage = some mem ∧
      (∀ (i : Nat) (h : i < rs.length), mem i =
        { s := rs[i].s
          t := rs[i].t
          p := rs[i].p
          q := rs[i].q
          rotation := rnd (rnd (rs[i].rotation * rnd (157 / 50)) / 180)
          scale_x := rs[i].scale_x
          scale_y := rs[i].scale_y
          w := toShort rs[i].width
          h := toShort rs[i].height
          translation_x := floatToShort rs[i].x
          translation_y := floatToShort rs[i].y
          r := rs[i].r
          g := rs[i].g
          b := rs[i].b
          a := rs[i].a }) ∧
      (∀ j : Int, (j < 0 ∨ (rs.length : Int) ≤ j) → mem j = buf j) ∧
      (∀ r : Sprite, ∃ mem2 : Buffer,
        (Add rnd (addAll rnd (Begin c (some buf)) rs) r).storage = some mem2 ∧
        ∀ i : Nat, i < rs.length → mem2 i = mem i)) ∧
    (∀ x : ℚ, floatToShort x =
      if -32769 < x ∧ x < 32768 then some (if 0 ≤ x then ⌊x⌋ else ⌈x⌉) else none) ∧
    (∀ v : Int,
      (-32768 ≤ v → v ≤ 32767 → toShort v = v) ∧
      -32768 ≤ toShort v ∧ toShort v ≤ 32767 ∧ (v - toShort v) % 65536 = 0) := by
  have hb : (Begin c (some buf)).storage = some buf := Begin_storage c _
  have h0 : (Begin c (some buf)).spriteCount = 0 := Begin_spriteCount c _
  obtain ⟨mem, hm, hin, hout⟩ :=
    addAll_storage rnd rs (Begin c (some buf)) buf hb (by rw [h0, zero_add]; exact hn)
  rw [h0] at hin hout
  refine ⟨⟨mem, hm, ?_, ?_, ?_⟩, floatToShort_eq, ?_⟩
  · intro i h
    have := hin i h
    rw [zero_add] at this
    exact this
  · intro j hj
    apply hout j
    rw [zero_add]
    exact hj
  · intro r
    have hcount : (addAll rnd (Begin c (some buf)) rs).spriteCount = rs.length := by
      rw [addAll_spriteCount rnd rs _ (by rw [hb]; rfl) (by rw [h0]; decide), h0, zero_add]
      exact min_eq_left hn
    by_cases hfull : MAX_SPRITES_PER_SPRITE_BATCH ≤ (addAll rnd (Begin c (some buf)) rs).spriteCount
    · rw [Add_of_full rnd _ r hfull]
      exact ⟨mem, hm, fun _ _ => rfl⟩
    · rw [Add_of_room rnd _ r mem hm (not_le.mp hfull)]
      refine ⟨_, rfl, ?_⟩
      intro i hi
      rw [hcount]
      apply Function.update_noteq
      intro hEq
      have : (i : Int) < rs.length := by exact_mod_cast hi
      omega
  · intro v
    unfold toShort
    refine ⟨?_, ?_, ?_, ?_⟩ <;> omega

/-- Witness of C2: two records added to a fresh batch, the first at position
(5/2, -7/2), which is stored as the translation (2, -3). -/
theorem C2_slots_in_insertion_order_witness :
    (((([{ width := 8, x := 5 / 2, y := -7 / 2 }, { width := 16 }] : List Sprite).length :
      Nat) : Int) ≤ MAX_SPRITES_PER_SPRITE_BATCH) ∧
    ∃ mem : Buffer,
      (addAll id (Begin init (some (fun _ => {})))
        [{ width := 8, x := 5 / 2, y := -7 / 2 }, { width := 16 }]).storage = some mem ∧
      (mem 0).w = 8 ∧ (mem 0).translation_x = some 2 ∧ (mem 0).translation_y = some (-3) ∧
      (mem 1).w = 16 ∧ (mem 1).translation_x = some 0 := by
  refine ⟨by decide, ?_⟩
  obtain ⟨⟨mem, hm, hin, _, _⟩, hconv, _⟩ := C2_slots_in_insertion_order id init (fun _ => {})
    [{ width := 8, x := 5 / 2, y := -7 / 2 }, { width := 16 }] (by decide)
  have h0 := hin 0 (by decide)
  have h1 := hin 1 (by decide)
  simp only [Nat.cast_zero] at h0
  simp only [Nat.cast_one] at h1
  have hx : floatToShort (5 / 2) = some 2 := by
    rw [hconv, if_pos (by norm_num), if_pos (by norm_num)]
    congr 1
    rw [Int.floor_eq_iff]
    norm_num
  have hy : floatToShort (-7 / 2) = some (-3) := by
    rw [hconv, if_pos (by norm_num), if_neg (by norm_num)]
    congr 1
    rw [Int.ceil_eq_iff]
    norm_num
  have hz : floatToShort 0 = some 0 := by
    rw [hconv, if_pos (by norm_num), if_pos (le_refl 0), Int.floor_zero]
  refine ⟨mem, hm, ?_, ?_, ?_, ?_, ?_⟩
  · rw [h0]
    decide
  · rw [h0]
    exact hx
  · rw [h0]
    exact hy
  · rw [h1]
    decide
  · rw [h1]
    exact hz

/-- C3. In every state reached from the initial one by any sequence of `Begin`, `Add`,
`End` and `Render` calls the counter lies between 0 and 16384; an `Add` made when the
counter is 16384 changes nothing; and no `Add` changes a slot of index 16384 or more
(nor a slot of negative index). -/
theorem C3_counter_never_exceeds_capacity (rnd : ℚ → ℚ) (ops : List Op) :
    0 ≤ (run rnd init ops).spriteCount ∧
    (run rnd init ops).spriteCount ≤ 16384 ∧
    (∀ r : Sprite, (run rnd init ops).spriteCount = 16384 →
      Add rnd (run rnd init ops) r = run rnd init ops) ∧
    (∀ (r : Sprite) (mem mem2 : Buffer), (run rnd init ops).storage = some mem →
      (Add rnd (run rnd init ops) r).storage = some mem2 →
      ∀ j : Int, (j < 0 ∨ 16384 ≤ j) → mem2 j = mem j) := by
  obtain ⟨h1, h2, _, _⟩ := Bounded_run rnd ops init Bounded_init
  unfold MAX_SPRITES_PER_SPRITE_BATCH at h2
  refine ⟨h1, h2, ?_, ?_⟩
  · intro r hfull
    apply Add_of_full
    rw [hfull]
    decide
  · intro r mem mem2 hm hm2 j hj
    by_cases hfull : MAX_SPRITES_PER_SPRITE_BATCH ≤ (run rnd init ops).spriteCount
    · rw [Add_of_full rnd _ r hfull, hm] at hm2
      rw [← Option.some.inj hm2]
    · have hlt := not_le.mp hfull
      rw [Add_of_room rnd _ r mem hm hlt] at hm2
      rw [← Option.some.inj hm2]
      apply Function.update_noteq
      unfold MAX_SPRITES_PER_SPRITE_BATCH at hlt
      omega

/-- The counter does reach capacity: a successful `Begin` followed by 16384 calls of
`Add`. -/
theorem run_reaches_capacity (rnd : ℚ → ℚ) (buf : Buffer) :
    (run rnd init (Op.Begin (some buf) :: List.replicate 16384 (Op.Add {}))).spriteCount
      = 16384 := by
  have hrun : ∀ (n : Nat) (c : Context),
      run rnd c (List.replicate n (Op.Add {})) = addAll rnd c (List.replicate n {}) := by
    intro n
    induction n with
    | zero => intro c; rfl
    | succ n ih =>
      intro c
      rw [List.replicate_succ, List.replicate_succ, run_cons, addAll_cons, ih]
      rfl
  rw [run_cons, hrun]
  show (addAll rnd (Begin init (some buf)) (List.replicate 16384 {})).spriteCount = 16384
  rw [addAll_spriteCount rnd _ _ (by rw [Begin_storage]; rfl)
    (by rw [Begin_spriteCount]; decide), Begin_spriteCount, List.length_replicate]
  decide

/-- Witness of C3: at capacity, reached by 16384 calls of `Add`, one more `Add` changes
nothing. -/
theorem C3_counter_never_exceeds_capacity_witness :
    (run id init (Op.Begin (some (fun _ => {})) ::
        List.replicate 16384 (Op.Add {}))).spriteCount = 16384 ∧
    Add id (run id init (Op.Begin (some (fun _ => {})) :: List.replicate 16384 (Op.Add {})))
        { x := 3 } =
      run id init (Op.Begin (some (fun _ => {})) :: List.replicate 16384 (Op.Add {})) :=
  ⟨run_reaches_capacity id _,
   (C3_counter_never_exceeds_capacity id _).2.2.1 _ (run_reaches_capacity id _)⟩

/-- C4 (the code at the failing input). Before the first `Begin` and after a `Begin`
whose mapping request returned null, `Add` changes nothing.  `End` releases the mapping
and leaves `g_context.storage` non-null, so an `Add` made after `End` is not dropped: it
passes the null test, writes the slot at the counter and increments the counter. -/
theorem C4_add_after_end_not_dropped (rnd : ℚ → ℚ) (c : Context) (buf : Buffer)
    (r : Sprite) :
    Add rnd init r = init ∧
    Add rnd (Begin c none) r = Begin c none ∧
    (End (Begin c (some buf))).mapped = false ∧
    (End (Begin c (some buf))).spriteCount = 0 ∧
    (Add rnd (End (Begin c (some buf))) r).spriteCount = 1 ∧
    ∃ mem : Buffer, (Add rnd (End (Begin c (some buf))) r).storage = some mem ∧
      (mem 0).w = toShort r.width ∧ (mem 0).r = r.r := by
  have hs : (End (Begin c (some buf))).storage = some buf := Begin_storage c _
  have h0 : (End (Begin c (some buf))).spriteCount = 0 := Begin_spriteCount c (some buf)
  have hA := Add_of_room rnd (End (Begin c (some buf))) r buf hs (by rw [h0]; decide)
  refine ⟨Add_of_null rnd init r rfl, Add_of_null rnd _ r (Begin_storage c none), rfl, h0,
    ?_, ?_⟩
  · rw [hA]
    simp only
    rw [h0]
    rfl
  · rw [hA]
    refine ⟨_, rfl, ?_, ?_⟩ <;> rw [h0, Function.update_same]

theorem runFrame_maxSprite (rnd : ℚ → ℚ) (c : Context) (f : Frame) :
    (runFrame rnd c f).maxSprite = max c.maxSprite c.spriteCount := by
  show (addAll rnd (Begin c f.mapping) f.sprites).maxSprite = _
  rw [addAll_maxSprite, Begin_maxSprite]

/-- The counter at the `End` of a frame: the number of records added, saturated at
capacity, and 0 when the mapping request returned null. -/
theorem runFrame_spriteCount (rnd : ℚ → ℚ) (c : Context) (f : Frame) :
    (runFrame rnd c f).spriteCount =
      if f.mapping.isSome then min (f.sprites.length : Int) MAX_SPRITES_PER_SPRITE_BATCH
      else 0 := by
  show (addAll rnd (Begin c f.mapping) f.sprites).spriteCount = _
  cases hm : f.mapping with
  | none =>
    rw [addAll_of_null rnd _ _ (Begin_storage c none), Begin_spriteCount]
    rfl
  | some buf =>
    rw [addAll_spriteCount rnd _ _ (by rw [Begin_storage]; rfl)
      (by rw [Begin_spriteCount]; decide), Begin_spriteCount, zero_add]
    rfl

theorem runFrames_cons (rnd : ℚ → ℚ) (c : Context) (f : Frame) (fs : List Frame) :
    runFrames rnd c (f :: fs) = runFrames rnd (runFrame rnd c f) fs := rfl

/-- The peak recorded after a sequence of complete frames started in any state: the
largest of the starting peak, the starting counter and the counters at `End` of all the
frames but the last. -/
theorem runFrames_maxSprite (rnd : ℚ → ℚ) (fs : List Frame) :
    ∀ c : Context, (runFrames rnd c fs).maxSprite =
      ((c.spriteCount :: endCounters rnd c fs).dropLast).foldl max c.maxSprite := by
  induction fs with
  | nil => intro c; rfl
  | cons f fs ih =>
    intro c
    rw [runFrames_cons, ih, runFrame_maxSprite]
    rfl

/-- C5 (counterexample). After the single complete frame `Begin; Add; End` on a fresh
batch the counter at `End` is 1 and `GetMaxSprites` returns 0, which is less than 1. -/
theorem C5_counterexample :
    (runFrames id init [⟨some (fun _ => {}), [{}]⟩]).spriteCount = 1 ∧
    GetMaxSprites (runFrames id init [⟨some (fun _ => {}), [{}]⟩]) = 0 ∧
    ¬ (1 ≤ GetMaxSprites (runFrames id init [⟨some (fun _ => {}), [{}]⟩])) := by
  refine ⟨by decide, by decide, by decide⟩

/-- C5 (amended). After any sequence of complete frames on a fresh batch,
`GetMaxSprites` returns the maximum of the counter values at `End` over all the frames
but the last (0 when there is at most one frame); the frame that has just ended is
counted from the next `Begin` on.  The counter at the `End` of a frame is the number of
records added, saturated at 16384, or 0 when the mapping request returned null. -/
theorem C5_max_sprites_lags_one_frame (rnd : ℚ → ℚ) (fs : List Frame)
    (mapping : Option Buffer) :
    GetMaxSprites (runFrames rnd init fs) =
      ((endCounters rnd init fs).dropLast).foldl max 0 ∧
    GetMaxSprites (Begin (runFrames rnd init fs) mapping) =
      (endCounters rnd init fs).foldl max 0 ∧
    endCounters rnd init fs = fs.map (fun f =>
      if f.mapping.isSome then min (f.sprites.length : Int) MAX_SPRITES_PER_SPRITE_BATCH
      else 0) := by
  have hlast : ∀ (fs : List Frame) (c : Context),
      (runFrames rnd c fs).spriteCount = ((c.spriteCount :: endCounters rnd c fs).getLast
        (List.cons_ne_nil _ _)) := by
    intro fs
    induction fs with
    | nil => intro c; rfl
    | cons f fs ih =>
      intro c
      rw [runFrames_cons, ih]
      rfl
  have hmax := runFrames_maxSprite rnd fs init
  refine ⟨?_, ?_, ?_⟩
  · unfold GetMaxSprites
    rw [hmax]
    cases h : endCounters rnd init fs with
    | nil => rfl
    | cons a l =>
      rw [List.dropLast_cons_of_ne_nil (List.cons_ne_nil a l), List.foldl_cons]
      rfl
  · unfold GetMaxSprites
    rw [Begin_maxSprite, hmax, hlast fs init]
    cases h : endCounters rnd init fs with
    | nil => rfl
    | cons a l =>
      have hsplit := List.dropLast_append_getLast (List.cons_ne_nil init.spriteCount (a :: l))
      have hfold : ((init.spriteCount :: a :: l)).foldl max init.maxSprite =
          max (((init.spriteCount :: a :: l).dropLast).foldl max init.maxSprite)
            ((init.spriteCount :: a :: l).getLast (List.cons_ne_nil _ _)) := by
        conv_lhs => rw [← hsplit]
        rw [List.foldl_append]
        rfl
      rw [← hfold]
      rfl
  · have hgen : ∀ (fs : List Frame) (c : Context), endCounters rnd c fs = fs.map (fun f =>
        if f.mapping.isSome then min (f.sprites.length : Int) MAX_SPRITES_PER_SPRITE_BATCH
        else 0) := by
      intro fs
      induction fs with
      | nil => intro c; rfl
      | cons f fs ih =>
        intro c
        show _ :: _ = _
        rw [ih, runFrame_spriteCount]
        rfl
    exact hgen fs init

/-- C6. `Begin` resets the counter to 0 and records `max(m, c)` as the peak, where `m`
and `c` are the peak and the counter before the call; the value of `GetMaxSprites` never
decreases along any sequence of calls, and in the states reached from the initial one it
never exceeds 16384. -/
theorem C6_begin_resets_and_records_peak (rnd : ℚ → ℚ) (c : Context)
    (mapping : Option Buffer) (ops : List Op) :
    (Begin c mapping).spriteCount = 0 ∧
    GetMaxSprites (Begin c mapping) = max (GetMaxSprites c) c.spriteCount ∧
    GetMaxSprites c ≤ GetMaxSprites (run rnd c ops) ∧
    GetMaxSprites (run rnd init ops) ≤ 16384 := by
  refine ⟨Begin_spriteCount c mapping, Begin_maxSprite c mapping,
    run_maxSprite_le rnd ops c, ?_⟩
  exact (Bounded_run rnd ops init Bounded_init).2.2.2

/-- A rounding function of relative error at most 2^-24 (the unit roundoff of `float`)
stays within that distance of a non-negative argument. -/
theorem rnd_bounds (rnd : ℚ → ℚ) (hrnd : ∀ x : ℚ, |rnd x - x| ≤ |x| / 2 ^ 24) (x : ℚ)
    (hx : 0 ≤ x) : rnd x ≤ x + x / 2 ^ 24 ∧ x - x / 2 ^ 24 ≤ rnd x := by
  have h := hrnd x
  rw [abs_of_nonneg hx] at h
  have h2 := abs_le.mp h
  constructor <;> linarith [h2.1, h2.2]

/-- The rotation stored for 180 degrees lies within 0.0001 of 3.14, whatever the
rounding. -/
theorem rotation_180_near_3_14 (rnd : ℚ → ℚ) (hrnd : ∀ x : ℚ, |rnd x - x| ≤ |x| / 2 ^ 24) :
    rnd (rnd (180 * rnd (157 / 50)) / 180) < 31401 / 10000 ∧
    31399 / 10000 < rnd (rnd (180 * rnd (157 / 50)) / 180) := by
  obtain ⟨a1, a2⟩ := rnd_bounds rnd hrnd (157 / 50) (by norm_num)
  have ha0 : 0 ≤ 180 * rnd (157 / 50) := by
    have : (0:ℚ) ≤ 157 / 50 - 157 / 50 / 2 ^ 24 := by norm_num
    linarith
  obtain ⟨b1, b2⟩ := rnd_bounds rnd hrnd (180 * rnd (157 / 50)) ha0
  have hb0 : 0 ≤ rnd (180 * rnd (157 / 50)) / 180 := by
    apply div_nonneg _ (by norm_num)
    have hle : 180 * rnd (157 / 50) / 2 ^ 24 ≤ 180 * rnd (157 / 50) := by
      apply div_le_self ha0
      norm_num
    linarith
  obtain ⟨c1, c2⟩ := rnd_bounds rnd hrnd _ hb0
  norm_num at a1 a2 b1 b2 c1 c2 ⊢
  constructor <;> linarith

/-- C7 (the code at the failing input). For a record of rotation 180 degrees added to a
freshly mapped batch, the rotation stored in slot 0 is `(180 * 3.14f) / 180.0f`; with
every floating-point operation rounded with relative error at most 2^-24 it is below
3.1401, hence more than 0.0014 below pi. -/
theorem C7_rotation_180_stored_below_pi (rnd : ℚ → ℚ)
    (hrnd : ∀ x : ℚ, |rnd x - x| ≤ |x| / 2 ^ 24) (c : Context) (buf : Buffer) :
    ∃ mem : Buffer, (Add rnd (Begin c (some buf)) { rotation := 180 }).storage = some mem ∧
      (mem 0).rotation = rnd (rnd (180 * rnd (157 / 50)) / 180) ∧
      (mem 0).rotation < 31401 / 10000 ∧
      (((mem 0).rotation : ℚ) : ℝ) < Real.pi - 14 / 10000 := by
  have hs : (Begin c (some buf)).storage = some buf := Begin_storage c _
  have h0 : (Begin c (some buf)).spriteCount = 0 := Begin_spriteCount c (some buf)
  have hA := Add_of_room rnd (Begin c (some buf)) { rotation := 180 } buf hs
    (by rw [h0]; decide)
  have hb := (rotation_180_near_3_14 rnd hrnd).1
  rw [hA]
  refine ⟨_, rfl, ?_, ?_, ?_⟩
  · rw [h0, Function.update_same]
  · rw [h0, Function.update_same]
    exact hb
  · rw [h0, Function.update_same]
    have hR : ((rnd (rnd (180 * rnd (157 / 50)) / 180) : ℚ) : ℝ) < ((31401 / 10000 : ℚ) : ℝ) := by
      exact_mod_cast hb
    have hpi := Real.pi_gt_d6
    push_cast at hR
    simp only
    linarith

/-- Witness of C7: exact arithmetic (`rnd = id`), where the stored rotation is 3.14. -/
theorem C7_rotation_180_stored_below_pi_witness :
    (∀ x : ℚ, |id x - x| ≤ |x| / 2 ^ 24) ∧
    ∃ mem : Buffer, (Add id (Begin init (some (fun _ => {}))) { rotation := 180 }).storage
        = some mem ∧
      (mem 0).rotation = id (id (180 * id (157 / 50)) / 180) ∧
      (mem 0).rotation < 31401 / 10000 ∧
      (((mem 0).rotation : ℚ) : ℝ) < Real.pi - 14 / 10000 :=
  have hid : ∀ x : ℚ, |id x - x| ≤ |x| / 2 ^ 24 := by
    intro x
    simp only [id, sub_self, abs_zero]
    positivity
  ⟨hid, C7_rotation_180_stored_below_pi id hid init (fun _ => {})⟩

end Petit2D.Sprite

/-! ## Atlas catalog: lemmas -/

namespace Petit2D.Catalog

theorem read_append (a rest : List Nat) (n : Nat) (hn : a.length = n) :
    IStream.read { data := a ++ rest, good := true } n = (a, { data := rest, good := true }) := by
  subst hn
  unfold IStream.read
  simp

theorem overlay_full (got old : List Nat) (h : old.length ≤ got.length) :
    overlay got old = got := by
  unfold overlay
  rw [List.drop_eq_nil_of_le h, List.append_nil]

theorem length_bytesOfUInt32 (v : Nat) : (bytesOfUInt32 v).length = 4 := rfl

theorem length_bytesOfInt32 (v : Int) : (bytesOfInt32 v).length = 4 := rfl

theorem uint32OfBytes_bytesOfUInt32 (v : Nat) (h : v < 4294967296) :
    uint32OfBytes (bytesOfUInt32 v) = v := by
  unfold uint32OfBytes bytesOfUInt32
  simp only [List.getD_cons_zero, List.getD_cons_succ]
  omega

theorem int32OfBytes_bytesOfInt32 (v : Int) (h : IsInt32 v) :
    int32OfBytes (bytesOfInt32 v) = v := by
  obtain ⟨h1, h2⟩ := h
  unfold int32OfBytes bytesOfInt32
  have hlt : (v % 4294967296).toNat < 4294967296 := by omega
  rw [uint32OfBytes_bytesOfUInt32 _ hlt]
  split <;> omega

theorem storeInt_bytesOfInt32 (old v : Int) (h : IsInt32 v) :
    storeInt old (bytesOfInt32 v) = v := by
  unfold storeInt
  rw [if_neg (by unfold bytesOfInt32 bytesOfUInt32; simp),
    overlay_full _ _ (by rw [length_bytesOfInt32, length_bytesOfInt32]),
    int32OfBytes_bytesOfInt32 v h]

theorem storeFloat_bytesOfUInt32 (floatOfBits : Nat → ℚ) (old : ℚ) (oldBits v : Nat)
    (h : v < 4294967296) :
    storeFloat floatOfBits old oldBits (bytesOfUInt32 v) = floatOfBits v := by
  unfold storeFloat
  rw [if_neg (by unfold bytesOfUInt32; simp),
    overlay_full _ _ (by rw [length_bytesOfUInt32, length_bytesOfUInt32]),
    uint32OfBytes_bytesOfUInt32 v h]

theorem take4_append (a rest : List Nat) (h : a.length = 4) : (a ++ rest).take 4 = a := by
  rw [← h]
  exact List.take_left a rest

theorem drop4_append (a rest : List Nat) (h : a.length = 4) : (a ++ rest).drop 4 = rest := by
  rw [← h]
  exact List.drop_left a rest

theorem storeSpriteDef_encode (floatOfBits : Nat → ℚ) (e : FileEntry)
    (h : WellFormedEntry e) :
    storeSpriteDef floatOfBits
      (bytesOfInt32 e.width ++ bytesOfInt32 e.height ++
        bytesOfUInt32 e.s ++ bytesOfUInt32 e.t ++ bytesOfUInt32 e.p ++ bytesOfUInt32 e.q)
      = e.spriteDef floatOfBits := by
  obtain ⟨_, hw, hh, hs, ht, hp, hq⟩ := h
  have e1 := storeInt_bytesOfInt32 0 e.width hw
  have e2 := storeInt_bytesOfInt32 0 e.height hh
  have e3 := storeFloat_bytesOfUInt32 floatOfBits 0 0 e.s hs
  have e4 := storeFloat_bytesOfUInt32 floatOfBits 0 0 e.t ht
  have e5 := storeFloat_bytesOfUInt32 floatOfBits 1 1065353216 e.p hp
  have e6 := storeFloat_bytesOfUInt32 floatOfBits 1 1065353216 e.q hq
  generalize hbw : bytesOfInt32 e.width = bw at e1
  generalize hbh : bytesOfInt32 e.height = bh at e2
  generalize hbs : bytesOfUInt32 e.s = bs at e3
  generalize hbt : bytesOfUInt32 e.t = bt at e4
  generalize hbp : bytesOfUInt32 e.p = bp at e5
  generalize hbq : bytesOfUInt32 e.q = bq at e6
  have lw : bw.length = 4 := by rw [← hbw]; rfl
  have lh : bh.length = 4 := by rw [← hbh]; rfl
  have ls : bs.length = 4 := by rw [← hbs]; rfl
  have lt : bt.length = 4 := by rw [← hbt]; rfl
  have lp : bp.length = 4 := by rw [← hbp]; rfl
  have lq : bq.length = 4 := by rw [← hbq]; rfl
  unfold storeSpriteDef FileEntry.spriteDef
  simp only [List.append_assoc]
  have d8 : ∀ l : List Nat, l.drop 8 = (l.drop 4).drop 4 := fun l => by rw [List.drop_drop]
  have d12 : ∀ l : List Nat, l.drop 12 = ((l.drop 4).drop 4).drop 4 := fun l => by
    rw [List.drop_drop, List.drop_drop]
  have d16 : ∀ l : List Nat, l.drop 16 = (((l.drop 4).drop 4).drop 4).drop 4 := fun l => by
    rw [List.drop_drop, List.drop_drop, List.drop_drop]
  have d20 : ∀ l : List Nat, l.drop 20 = ((((l.drop 4).drop 4).drop 4).drop 4).drop 4 :=
    fun l => by rw [List.drop_drop, List.drop_drop, List.drop_drop, List.drop_drop]
  rw [d8, d12, d16, d20]
  rw [drop4_append bw _ lw, drop4_append bh _ lh, drop4_append bs _ ls,
    drop4_append bt _ lt, drop4_append bp _ lp, take4_append bw _ lw, take4_append bh _ lh,
    take4_append bs _ ls, take4_append bt _ lt, take4_append bp _ lp]
  have t6 : bq.take 4 = bq := by rw [← lq]; exact List.take_length bq
  rw [t6, e1, e2, e3, e4, e5, e6]

theorem cstring_padded (name : Name) (h : WellFormedName name) :
    cstring (overlay (name ++ List.replicate (32 - name.length) 0) (List.replicate 32 0))
      = name := by
  obtain ⟨hlen, hch⟩ := h
  rw [overlay_full _ _ (by simp; omega)]
  unfold cstring
  have hrep : List.replicate (32 - name.length) 0 =
      0 :: List.replicate (31 - name.length) 0 := by
    rw [← List.replicate_succ]
    congr 1
    omega
  rw [hrep, List.takeWhile_append_of_pos]
  · simp
  · intro ch hmem
    simpa using (hch ch hmem).1

theorem length_encodeEntry_tail (e : FileEntry) :
    (bytesOfInt32 e.width ++ bytesOfInt32 e.height ++
      bytesOfUInt32 e.s ++ bytesOfUInt32 e.t ++ bytesOfUInt32 e.p ++ bytesOfUInt32 e.q).length
      = 24 := rfl

/-- One iteration of the loop on the bytes of a well-formed definition. -/
theorem readSprites_succ_encode (floatOfBits : Nat → ℚ) (count : Nat) (e : FileEntry)
    (rest : List Nat) (m : SpriteMap) (h : WellFormedEntry e) :
    readSprites floatOfBits (count + 1) { data := encodeEntry e ++ rest, good := true } m =
      readSprites floatOfBits count { data := rest, good := true }
        (mapInsert m e.name (e.spriteDef floatOfBits)) := by
  have hname : (e.name ++ List.replicate (32 - e.name.length) 0).length = 32 := by
    have := h.1.1
    simp
    omega
  unfold encodeEntry
  rw [readSprites, List.append_assoc, read_append _ _ 32 hname]
  simp only
  rw [read_append _ _ 24 (length_encodeEntry_tail e)]
  simp only
  rw [cstring_padded e.name h.1, storeSpriteDef_encode floatOfBits e h]

/-- The loop on the bytes of a list of well-formed definitions inserts them in file
order. -/
theorem readSprites_encode (floatOfBits : Nat → ℚ) (entries : List FileEntry) :
    ∀ (m : SpriteMap), (∀ e ∈ entries, WellFormedEntry e) →
      readSprites floatOfBits entries.length
          { data := (entries.map encodeEntry).flatten, good := true } m =
        entries.foldl (fun acc e => mapInsert acc e.name (e.spriteDef floatOfBits)) m := by
  induction entries with
  | nil => intro m _; rfl
  | cons e es ih =>
    intro m hwf
    simp only [List.map_cons, List.flatten_cons, List.length_cons, List.foldl_cons]
    rw [readSprites_succ_encode floatOfBits _ e _ m (hwf e (List.mem_cons_self e es))]
    exact ih _ (fun x hx => hwf x (List.mem_cons_of_mem e hx))

theorem mapFind_append (m1 m2 : SpriteMap) (name : Name) :
    mapFind (m1 ++ m2) name =
      match mapFind m1 name with
      | some v => some v
      | none => mapFind m2 name := by
  induction m1 with
  | nil => rfl
  | cons kv m1 ih =>
    obtain ⟨k, v⟩ := kv
    simp only [List.cons_append, mapFind]
    split
    · rfl
    · exact ih

theorem mapFind_eq_none (m : SpriteMap) (name : Name) (h : name ∉ m.map Prod.fst) :
    mapFind m name = none := by
  induction m with
  | nil => rfl
  | cons kv m ih =>
    obtain ⟨k, v⟩ := kv
    simp only [List.map_cons, List.mem_cons, not_or] at h
    simp only [mapFind]
    rw [if_neg (fun hk => h.1 hk.symm)]
    exact ih h.2

/-- Inserting definitions of pairwise distinct names, none of them a key of the map,
appends them in order. -/
theorem foldl_mapInsert_fresh (floatOfBits : Nat → ℚ) (entries : List FileEntry) :
    ∀ (m : SpriteMap), (m.map Prod.fst ++ entries.map FileEntry.name).Nodup →
      entries.foldl (fun acc e => mapInsert acc e.name (e.spriteDef floatOfBits)) m =
        m ++ entries.map (fun e => (e.name, e.spriteDef floatOfBits)) := by
  induction entries with
  | nil => intro m _; simp
  | cons e es ih =>
    intro m hnd
    simp only [List.foldl_cons, List.map_cons]
    have hfresh : e.name ∉ m.map Prod.fst := by
      intro hmem
      rw [List.nodup_append] at hnd
      exact hnd.2.2 hmem (by simp)
    have hins : mapInsert m e.name (e.spriteDef floatOfBits) =
        m ++ [(e.name, e.spriteDef floatOfBits)] := by
      unfold mapInsert
      rw [mapFind_eq_none m e.name hfresh]
    rw [hins, ih]
    · simp
    · simp only [List.map_append, List.map_cons, List.map_nil, List.append_assoc,
        List.singleton_append]
      simpa using hnd

/-- The catalog produced by `Init` from a well-formed file, whatever the catalog was. -/
theorem Init_encodeFile (floatOfBits : Nat → ℚ) (catalog : Catalog) (w h : Int)
    (entries : List FileEntry) (hwf : WellFormedFile w h entries) :
    Init floatOfBits catalog (some (encodeFile w h entries)) =
      { imageWidth := w
        imageHeight := h
        spriteCount := entries.length
        sprites := entries.map (fun e => (e.name, e.spriteDef floatOfBits)) } := by
  obtain ⟨hw, hh, hn, hes, hnd⟩ := hwf
  have hlen : ¬ (encodeFile w h entries).length ≤ 6 := by
    unfold encodeFile
    simp [SPRCAT, length_bytesOfInt32]
  unfold Init
  simp only
  rw [if_neg hlen]
  unfold encodeFile
  rw [List.append_assoc, read_append SPRCAT _ 6 rfl]
  simp only
  have hmagic : cstring (overlay SPRCAT (List.replicate 7 0)) = SPRCAT := by decide
  rw [if_neg (not_not.mpr hmagic)]
  simp only [List.append_assoc]
  rw [read_append _ _ 4 (length_bytesOfInt32 w)]
  simp only
  rw [read_append _ _ 4 (length_bytesOfInt32 h)]
  simp only
  rw [read_append _ _ 4 (length_bytesOfInt32 _)]
  simp only
  rw [storeInt_bytesOfInt32 _ w hw, storeInt_bytesOfInt32 _ h hh,
    storeInt_bytesOfInt32 _ _ hn, Int.toNat_ofNat,
    readSprites_encode floatOfBits entries [] hes,
    foldl_mapInsert_fresh floatOfBits entries [] (by simpa using hnd)]
  simp

end Petit2D.Catalog

/-! ## Atlas catalog: claims -/

namespace Petit2D.Catalog

theorem mapFind_map_of_nodup (floatOfBits : Nat → ℚ) (entries : List FileEntry)
    (hnd : (entries.map FileEntry.name).Nodup) (e : FileEntry) (he : e ∈ entries) :
    mapFind (entries.map (fun x => (x.name, x.spriteDef floatOfBits))) e.name =
      some (e.spriteDef floatOfBits) := by
  induction entries with
  | nil => exact absurd he (List.not_mem_nil e)
  | cons e0 es ih =>
    simp only [List.map_cons, List.nodup_cons] at hnd
    simp only [List.map_cons, mapFind]
    rcases List.mem_cons.mp he with h | h
    · rw [h, if_pos rfl]
    · have hne : e0.name ≠ e.name := by
        intro heq
        apply hnd.1
        rw [heq]
        exact List.mem_map_of_mem FileEntry.name h
      rw [if_neg hne]
      exact ih hnd.2 h

theorem Get_of_mapFind (catalog : Catalog) (name : Name) (v : SpriteDef)
    (h : mapFind catalog.sprites name = some v) : (Get catalog name).1 = v := by
  unfold Get mapIndex
  rw [h]

theorem sampleEntries_wellFormed : WellFormedFile 64 32 sampleEntries := by
  unfold WellFormedFile
  refine ⟨by unfold IsInt32; decide, by unfold IsInt32; decide, by unfold IsInt32; decide,
    ?_, by decide⟩
  intro e he
  unfold sampleEntries at he
  simp only [List.mem_cons, List.mem_singleton, List.not_mem_nil, or_false] at he
  rcases he with h | h <;> subst h <;>
    exact ⟨⟨by decide, by decide⟩, by unfold IsInt32; decide, by unfold IsInt32; decide,
      by decide, by decide, by decide, by decide⟩

/-- C8. `Init` on a well-formed file (magic, three little-endian 32-bit integers `w`, `h`
and the count, then that many definitions of pairwise distinct NUL-padded names, each
followed by its 24-byte `SpriteDef`) sets `imageWidth = w`, `imageHeight = h`,
`spriteCount` to the count, leaves a mapping of exactly that many entries, and `Get`
with the name of definition `i` returns the `SpriteDef` of definition `i`. -/
theorem C8_init_reads_well_formed_file (floatOfBits : Nat → ℚ) (catalog : Catalog)
    (w h : Int) (entries : List FileEntry) (hwf : WellFormedFile w h entries) :
    (Init floatOfBits catalog (some (encodeFile w h entries))).imageWidth = w ∧
    (Init floatOfBits catalog (some (encodeFile w h entries))).imageHeight = h ∧
    (Init floatOfBits catalog (some (encodeFile w h entries))).spriteCount = entries.length ∧
    (Init floatOfBits catalog (some (encodeFile w h entries))).sprites.length
      = entries.length ∧
    ∀ (i : Nat) (hi : i < entries.length),
      (Get (Init floatOfBits catalog (some (encodeFile w h entries))) entries[i].name).1 =
        { width := entries[i].width
          height := entries[i].height
          s := floatOfBits entries[i].s
          t := floatOfBits entries[i].t
          p := floatOfBits entries[i].p
          q := floatOfBits entries[i].q } := by
  rw [Init_encodeFile floatOfBits catalog w h entries hwf]
  refine ⟨rfl, rfl, rfl, by simp, ?_⟩
  intro i hi
  apply Get_of_mapFind
  exact mapFind_map_of_nodup floatOfBits entries hwf.2.2.2.2 entries[i]
    (List.getElem_mem hi)

/-- Witness of C8: the sample file of two definitions read into a fresh catalog. -/
theorem C8_init_reads_well_formed_file_witness :
    WellFormedFile 64 32 sampleEntries ∧
    (Init float32OfBits Create (some (encodeFile 64 32 sampleEntries))).imageWidth = 64 ∧
    (Init float32OfBits Create (some (encodeFile 64 32 sampleEntries))).imageHeight = 32 ∧
    (Init float32OfBits Create (some (encodeFile 64 32 sampleEntries))).spriteCount = 2 ∧
    (Init float32OfBits Create (some (encodeFile 64 32 sampleEntries))).sprites.length
      = 2 ∧
    (Get (Init float32OfBits Create (some (encodeFile 64 32 sampleEntries))) [98, 99]).1 =
      { width := 4
        height := 2
        s := float32OfBits 1056964608
        t := float32OfBits 0
        p := float32OfBits 1065353216
        q := float32OfBits 1065353216 } :=
  have h := C8_init_reads_well_formed_file float32OfBits Create 64 32 sampleEntries
    sampleEntries_wellFormed
  ⟨sampleEntries_wellFormed, h.1, h.2.1, h.2.2.1, h.2.2.2.1, h.2.2.2.2 1 (by decide)⟩

/-- C9. `Init` leaves the catalog exactly as it was when the file cannot be opened, is
shorter than 6 bytes, or does not start with the 6 bytes "SPRCAT". -/
theorem C9_init_failure_keeps_catalog (floatOfBits : Nat → ℚ) (catalog : Catalog)
    (file : Option (List Nat))
    (hbad : file = none ∨
      ∃ bytes, file = some bytes ∧ (bytes.length < 6 ∨ bytes.take 6 ≠ SPRCAT)) :
    Init floatOfBits catalog file = catalog := by
  rcases hbad with h | ⟨bytes, h, hb⟩
  · rw [h]
    rfl
  · rw [h]
    unfold Init
    simp only
    by_cases hlen : bytes.length ≤ 6
    · rw [if_pos hlen]
    · rw [if_neg hlen]
      have hlen6 : 6 ≤ bytes.length := by omega
      have hne : bytes.take 6 ≠ SPRCAT := by
        rcases hb with hb | hb
        · omega
        · exact hb
      have hread : (IStream.read { data := bytes, good := true } 6).1 = bytes.take 6 := by
        unfold IStream.read
        simp [hlen6]
      rw [hread]
      have hcheck : cstring (overlay (bytes.take 6) (List.replicate 7 0)) ≠ SPRCAT := by
        intro heq
        apply hne
        have hov : overlay (bytes.take 6) (List.replicate 7 0) = bytes.take 6 ++ [0] := by
          unfold overlay
          rw [List.length_take, Nat.min_eq_left hlen6]
          rfl
        rw [hov] at heq
        have hpre : SPRCAT <+: bytes.take 6 ++ [0] := by
          rw [← heq]
          exact List.takeWhile_prefix _
        have htake := List.prefix_iff_eq_take.mp hpre
        have hl : (bytes.take 6).length = 6 := by
          rw [List.length_take, Nat.min_eq_left hlen6]
        have h6 : List.take 6 (bytes.take 6 ++ [0]) = bytes.take 6 := by
          generalize bytes.take 6 = l at hl
          rw [← hl]
          exact List.take_left l [0]
        have hS : SPRCAT.length = 6 := rfl
        rw [hS, h6] at htake
        exact htake.symm
      rw [if_pos hcheck]

/-- Witness of C9: a file of 8 bytes that does not start with the magic. -/
theorem C9_init_failure_keeps_catalog_witness :
    ((some [83, 80, 82, 67, 65, 85, 1, 2] : Option (List Nat)) = none ∨
      ∃ bytes, (some [83, 80, 82, 67, 65, 85, 1, 2] : Option (List Nat)) = some bytes ∧
        (bytes.length < 6 ∨ bytes.take 6 ≠ SPRCAT)) ∧
    Init float32OfBits sampleCatalog (some [83, 80, 82, 67, 65, 85, 1, 2]) = sampleCatalog :=
  have hbad : ((some [83, 80, 82, 67, 65, 85, 1, 2] : Option (List Nat)) = none ∨
      ∃ bytes, (some [83, 80, 82, 67, 65, 85, 1, 2] : Option (List Nat)) = some bytes ∧
        (bytes.length < 6 ∨ bytes.take 6 ≠ SPRCAT)) :=
    Or.inr ⟨_, rfl, Or.inr (by decide)⟩
  ⟨hbad, C9_init_failure_keeps_catalog float32OfBits sampleCatalog _ hbad⟩

/-- C10. On a well-formed file `Init` leaves a mapping holding exactly the definitions
of the file, whatever the catalog held before: no earlier entry survives, the resulting
catalog is the same for any two prior catalogs, and reading the same file a second time
gives the same catalog as reading it once. -/
theorem C10_init_replaces (floatOfBits : Nat → ℚ) (c1 c2 : Catalog) (w h : Int)
    (entries : List FileEntry) (hwf : WellFormedFile w h entries) :
    (Init floatOfBits c1 (some (encodeFile w h entries))).sprites =
      entries.map (fun e => (e.name, e.spriteDef floatOfBits)) ∧
    (∀ name : Name, name ∉ entries.map FileEntry.name →
      mapFind (Init floatOfBits c1 (some (encodeFile w h entries))).sprites name = none) ∧
    Init floatOfBits c1 (some (encodeFile w h entries)) =
      Init floatOfBits c2 (some (encodeFile w h entries)) ∧
    Init floatOfBits (Init floatOfBits c1 (some (encodeFile w h entries)))
        (some (encodeFile w h entries)) =
      Init floatOfBits c1 (some (encodeFile w h entries)) := by
  rw [Init_encodeFile floatOfBits c1 w h entries hwf,
    Init_encodeFile floatOfBits c2 w h entries hwf,
    Init_encodeFile floatOfBits _ w h entries hwf]
  refine ⟨rfl, ?_, rfl, rfl⟩
  intro name hname
  apply mapFind_eq_none
  simpa [List.map_map, Function.comp_def] using hname

/-- Witness of C10: the sample file read over a catalog that holds another definition;
the earlier entry "z" is gone. -/
theorem C10_init_replaces_witness :
    WellFormedFile 64 32 sampleEntries ∧
    mapFind sampleCatalog.sprites [122] = some {} ∧
    mapFind (Init float32OfBits sampleCatalog (some (encodeFile 64 32 sampleEntries))).sprites
      [122] = none ∧
    Init float32OfBits sampleCatalog (some (encodeFile 64 32 sampleEntries)) =
      Init float32OfBits Create (some (encodeFile 64 32 sampleEntries)) :=
  have h := C10_init_replaces float32OfBits sampleCatalog Create 64 32 sampleEntries
    sampleEntries_wellFormed
  ⟨sampleEntries_wellFormed, by decide, h.2.1 [122] (by decide), h.2.2.1⟩

end Petit2D.Catalog

/-! ## Atlas catalog: lookups and glyph grid -/

namespace Petit2D.Catalog

theorem Get_of_miss (catalog : Catalog) (name : Name)
    (h : mapFind catalog.sprites name = none) : Get catalog name = ({}, catalog) := by
  unfold Get
  rw [h]

theorem Get_of_hit (catalog : Catalog) (name : Name) (v : SpriteDef)
    (h : mapFind catalog.sprites name = some v) : Get catalog name = (v, catalog) := by
  unfold Get mapIndex
  rw [h]

/-- C11. `Get` with a name that is not a key of the mapping returns the
default-initialized `SpriteDef` (0, 0, 0, 0, 1, 1) and leaves the catalog, its mapping
included, unchanged: no entry is inserted.  `Get` with a name the mapping holds returns
the stored `SpriteDef` and leaves the catalog unchanged. -/
theorem C11_get_leaves_catalog_unchanged (catalog : Catalog) (name : Name) :
    (name ∉ catalog.sprites.map Prod.fst →
      Get catalog name =
        ({ width := 0, height := 0, s := 0, t := 0, p := 1, q := 1 }, catalog)) ∧
    (∀ v : SpriteDef, mapFind catalog.sprites name = some v →
      Get catalog name = (v, catalog)) := by
  constructor
  · intro hmiss
    exact Get_of_miss catalog name (mapFind_eq_none _ _ hmiss)
  · intro v hv
    exact Get_of_hit catalog name v hv

/-- Witness of C11: a miss and a hit on the sample catalog. -/
theorem C11_get_leaves_catalog_unchanged_witness :
    ([1] ∉ sampleCatalog.sprites.map Prod.fst ∧
      Get sampleCatalog [1] =
        ({ width := 0, height := 0, s := 0, t := 0, p := 1, q := 1 }, sampleCatalog)) ∧
    (mapFind sampleCatalog.sprites [122] = some {} ∧
      Get sampleCatalog [122] = ({}, sampleCatalog)) :=
  ⟨⟨by decide, (C11_get_leaves_catalog_unchanged sampleCatalog [1]).1 (by decide)⟩,
   ⟨by decide, (C11_get_leaves_catalog_unchanged sampleCatalog [122]).2 {} (by decide)⟩⟩

/-- C12. When the mapping holds `name` with definition `d`, `Set` with flags copies the
rectangle `s, t, p, q` of `d` into the sprite, copies `d.width` only if `setWidth` and
`d.height` only if `setHeight`, and leaves every other field of the sprite and the
catalog unchanged. -/
theorem C12_set_flags_on_hit (catalog : Catalog) (name : Name) (d : SpriteDef)
    (sprite : Sprite.Sprite) (setWidth setHeight : Bool)
    (hhit : mapFind catalog.sprites name = some d) :
    Set catalog name sprite setWidth setHeight =
      ({ x := sprite.x
         y := sprite.y
         s := d.s
         t := d.t
         p := d.p
         q := d.q
         r := sprite.r
         g := sprite.g
         b := sprite.b
         a := sprite.a
         scale_x := sprite.scale_x
         scale_y := sprite.scale_y
         rotation := sprite.rotation
         width := if setWidth then d.width else sprite.width
         height := if setHeight then d.height else sprite.height }, catalog) := by
  unfold Set mapIndex
  rw [hhit]
  cases setWidth <;> cases setHeight <;> rfl

/-- Witness of C12: the flags (true, false) on the sample catalog. -/
theorem C12_set_flags_on_hit_witness :
    mapFind sampleCatalog.sprites [122] = some {} ∧
    Set sampleCatalog [122] { width := 5, height := 6, s := 3 } true false =
      ({ width := 0, height := 6, s := 0, t := 0, p := 1, q := 1 }, sampleCatalog) :=
  ⟨by decide,
   C12_set_flags_on_hit sampleCatalog [122] {} { width := 5, height := 6, s := 3 } true false
     (by decide)⟩

/-- C13. When `name` is not a key of the mapping, both overloads of `Set` leave the
sprite and the catalog unchanged. -/
theorem C13_set_on_miss (catalog : Catalog) (name : Name) (sprite : Sprite.Sprite)
    (setWidth setHeight : Bool) (width height : Int)
    (hmiss : name ∉ catalog.sprites.map Prod.fst) :
    Set catalog name sprite setWidth setHeight = (sprite, catalog) ∧
    SetSize catalog name sprite width height = (sprite, catalog) := by
  have h := mapFind_eq_none _ _ hmiss
  constructor
  · unfold Set
    rw [h]
  · unfold SetSize
    rw [h]

/-- Witness of C13: the name "missing" on the sample catalog. -/
theorem C13_set_on_miss_witness :
    [109, 105, 115, 115, 105, 110, 103] ∉ sampleCatalog.sprites.map Prod.fst ∧
    Set sampleCatalog [109, 105, 115, 115, 105, 110, 103] { width := 5, s := 3 } true true =
      ({ width := 5, s := 3 }, sampleCatalog) ∧
    SetSize sampleCatalog [109, 105, 115, 115, 105, 110, 103] { width := 5, s := 3 } 7 9 =
      ({ width := 5, s := 3 }, sampleCatalog) :=
  ⟨by decide,
   C13_set_on_miss sampleCatalog [109, 105, 115, 115, 105, 110, 103] { width := 5, s := 3 }
     true true 7 9 (by decide)⟩

/-- C14. When the mapping holds `name` with definition `d`, `Set` with an explicit size
gives the sprite `width = w`, `height = h` and the rectangle of `d`, whatever `d.width`
and `d.height` are, and leaves the other fields and the catalog unchanged; the result is
that of `Set` with both flags false followed by the assignment of `w` and `h`. -/
theorem C14_set_size_on_hit (catalog : Catalog) (name : Name) (d : SpriteDef)
    (sprite : Sprite.Sprite) (w h : Int) (hhit : mapFind catalog.sprites name = some d) :
    SetSize catalog name sprite w h =
      ({ x := sprite.x
         y := sprite.y
         s := d.s
         t := d.t
         p := d.p
         q := d.q
         r := sprite.r
         g := sprite.g
         b := sprite.b
         a := sprite.a
         scale_x := sprite.scale_x
         scale_y := sprite.scale_y
         rotation := sprite.rotation
         width := w
         height := h }, catalog) ∧
    SetSize catalog name sprite w h =
      ({ (Set catalog name sprite false false).1 with width := w, height := h },
       (Set catalog name sprite false false).2) := by
  unfold SetSize Set mapIndex
  rw [hhit]
  exact ⟨rfl, rfl⟩

/-- Witness of C14: the size 7 x 9 on the sample catalog. -/
theorem C14_set_size_on_hit_witness :
    mapFind sampleCatalog.sprites [122] = some {} ∧
    SetSize sampleCatalog [122] { width := 5, height := 6, s := 3 } 7 9 =
      ({ width := 7, height := 9, s := 0, t := 0, p := 1, q := 1 }, sampleCatalog) :=
  ⟨by decide,
   (C14_set_size_on_hit sampleCatalog [122] {} { width := 5, height := 6, s := 3 } 7 9
     (by decide)).1⟩

theorem foldl_append_singleton {α β : Type} (f : β → α) (l : List β) :
    ∀ acc : List α, l.foldl (fun acc2 x => acc2 ++ [f x]) acc = acc ++ l.map f := by
  induction l with
  | nil => intro acc; simp
  | cons x l ih => intro acc; simp [ih]

theorem foldl_append_lists {α β : Type} (f : β → List α) (l : List β) :
    ∀ acc : List α, l.foldl (fun acc2 y => acc2 ++ f y) acc = acc ++ (l.map f).flatten := by
  induction l with
  | nil => intro acc; simp
  | cons y l ih => intro acc; simp [ih]

set_option maxRecDepth 100000 in
theorem grid_row_major {α : Type} (f : Nat → Nat → α) :
    ((List.range 16).map (fun y => (List.range 16).map (fun x => f y x))).flatten =
      (List.range 256).map (fun k => f (k / 16) (k % 16)) := by
  rfl

/-- The vector after `PopulateFontGlyphs`: the vector before followed by the 256 glyphs
in row-major order. -/
theorem PopulateFontGlyphs_eq (rnd : ℚ → ℚ) (glyphs : List SpriteDef) (d : SpriteDef) :
    PopulateFontGlyphs rnd glyphs d =
      glyphs ++ (List.range 256).map (fun k => fontGlyph rnd d (k / 16) (k % 16)) := by
  unfold PopulateFontGlyphs
  have hinner : (fun (acc : List SpriteDef) (y : Nat) =>
      (List.range 16).foldl (fun acc2 x => acc2 ++ [fontGlyph rnd d y x]) acc) =
      (fun acc y => acc ++ (List.range 16).map (fun x => fontGlyph rnd d y x)) := by
    funext acc y
    exact foldl_append_singleton (fun x => fontGlyph rnd d y x) (List.range 16) acc
  rw [hinner, foldl_append_lists, grid_row_major]

theorem PopulateFontGlyphs_getElem (rnd : ℚ → ℚ) (glyphs : List SpriteDef) (d : SpriteDef)
    (r c : Nat) (hr : r < 16) (hc : c < 16) :
    (PopulateFontGlyphs rnd glyphs d)[glyphs.length + 16 * r + c]? =
      some (fontGlyph rnd d r c) := by
  rw [PopulateFontGlyphs_eq, Nat.add_assoc,
    List.getElem?_append_right (Nat.le_add_right _ _), Nat.add_sub_cancel_left,
    List.getElem?_map, List.getElem?_range (by omega)]
  have h1 : (16 * r + c) / 16 = r := by omega
  have h2 : (16 * r + c) % 16 = c := by omega
  simp only [Option.map_some', h1, h2]

/-- C15. `PopulateFontGlyphs` appends without clearing: the vector afterwards has 256
more elements, starts with the elements it had, unchanged and in order, and holds the
glyph of grid cell (row `r`, column `c`) at index `|g| + 16 r + c`. -/
theorem C15_populate_appends_row_major (rnd : ℚ → ℚ) (glyphs : List SpriteDef)
    (d : SpriteDef) (r c : Nat) (hr : r < 16) (hc : c < 16) :
    (PopulateFontGlyphs rnd glyphs d).length = glyphs.length + 256 ∧
    (PopulateFontGlyphs rnd glyphs d).take glyphs.length = glyphs ∧
    (PopulateFontGlyphs rnd glyphs d)[glyphs.length + 16 * r + c]? =
      some
        { width := Int.tdiv d.width 16
          height := Int.tdiv d.height 16
          s := rnd (d.s + rnd ((c : ℚ) * rnd (rnd (d.p - d.s) / 16)))
          t := rnd (d.t + rnd ((r : ℚ) * rnd (rnd (d.q - d.t) / 16)))
          p := rnd (d.s + rnd (rnd ((c : ℚ) * rnd (rnd (d.p - d.s) / 16)) +
            rnd (rnd (d.p - d.s) / 16)))
          q := rnd (d.t + rnd (rnd ((r : ℚ) * rnd (rnd (d.q - d.t) / 16)) +
            rnd (rnd (d.q - d.t) / 16))) } := by
  refine ⟨?_, ?_, ?_⟩
  · rw [PopulateFontGlyphs_eq]
    simp
  · rw [PopulateFontGlyphs_eq]
    exact List.take_left glyphs _
  · rw [PopulateFontGlyphs_getElem rnd glyphs d r c hr hc]
    rfl

/-- Witness of C15: the cell of row 3, column 5 lands at index 1 + 53 of a vector that
held one element. -/
theorem C15_populate_appends_row_major_witness :
    (3 < 16 ∧ 5 < 16) ∧
    (PopulateFontGlyphs id [{ width := 9 }] { width := 320, height := 160 }).length
      = 1 + 256 ∧
    (PopulateFontGlyphs id [{ width := 9 }] { width := 320, height := 160 }).take 1
      = [{ width := 9 }] :=
  have h := C15_populate_appends_row_major id [{ width := 9 }]
    { width := 320, height := 160 } 3 5 (by decide) (by decide)
  ⟨⟨by decide, by decide⟩, h.1, h.2.1⟩

/-- The glyph of a cell in exact arithmetic. -/
theorem fontGlyph_exact (d : SpriteDef) (r c : Nat) :
    fontGlyph id d r c =
      { width := Int.tdiv d.width 16
        height := Int.tdiv d.height 16
        s := d.s + (c : ℚ) * (d.p - d.s) / 16
        t := d.t + (r : ℚ) * (d.q - d.t) / 16
        p := d.s + ((c : ℚ) + 1) * (d.p - d.s) / 16
        q := d.t + ((r : ℚ) + 1) * (d.q - d.t) / 16 } := by
  unfold fontGlyph
  simp only [id]
  congr 1 <;> ring

/-- C16. In exact arithmetic the glyph of cell (row `r`, column `c`) has the rectangle
`s = d.s + c (d.p - d.s) / 16`, `t = d.t + r (d.q - d.t) / 16`,
`p = d.s + (c + 1) (d.p - d.s) / 16`, `q = d.t + (r + 1) (d.q - d.t) / 16`; hence the right
edge of a cell is the left edge of the next column, the bottom edge of a cell is the top
edge of the next row, column 15 ends at `d.p` and row 15 at `d.q`.  For the sheet
(0, 0, 1, 1) of size 320 x 320 every cell has width and height 20 and the rectangle
`c / 16, r / 16, (c + 1) / 16, (r + 1) / 16`. -/
theorem C16_glyph_rectangles_interpolate (glyphs : List SpriteDef) (d : SpriteDef)
    (r c : Nat) (hr : r < 16) (hc : c < 16) :
    (PopulateFontGlyphs id glyphs d)[glyphs.length + 16 * r + c]? =
      some
        { width := Int.tdiv d.width 16
          height := Int.tdiv d.height 16
          s := d.s + (c : ℚ) * (d.p - d.s) / 16
          t := d.t + (r : ℚ) * (d.q - d.t) / 16
          p := d.s + ((c : ℚ) + 1) * (d.p - d.s) / 16
          q := d.t + ((r : ℚ) + 1) * (d.q - d.t) / 16 } ∧
    (fontGlyph id d r c).p = (fontGlyph id d r (c + 1)).s ∧
    (fontGlyph id d r c).q = (fontGlyph id d (r + 1) c).t ∧
    (fontGlyph id d r 15).p = d.p ∧
    (fontGlyph id d 15 c).q = d.q ∧
    (PopulateFontGlyphs id glyphs
        { width := 320, height := 320, s := 0, t := 0, p := 1, q := 1 })[
        glyphs.length + 16 * r + c]? =
      some
        { width := 20
          height := 20
          s := (c : ℚ) / 16
          t := (r : ℚ) / 16
          p := ((c : ℚ) + 1) / 16
          q := ((r : ℚ) + 1) / 16 } := by
  refine ⟨?_, ?_, ?_, ?_, ?_, ?_⟩
  · rw [PopulateFontGlyphs_getElem id glyphs d r c hr hc, fontGlyph_exact]
  · rw [fontGlyph_exact, fontGlyph_exact]
    simp only [Nat.cast_add, Nat.cast_one]
  · rw [fontGlyph_exact, fontGlyph_exact]
    simp only [Nat.cast_add, Nat.cast_one]
  · rw [fontGlyph_exact]
    simp only [Nat.cast_ofNat]
    ring
  · rw [fontGlyph_exact]
    simp only [Nat.cast_ofNat]
    ring
  · rw [PopulateFontGlyphs_getElem id glyphs _ r c hr hc, fontGlyph_exact]
    have hw : Int.tdiv 320 16 = 20 := by decide
    simp only [hw, sub_zero, mul_one, zero_add]

/-- Witness of C16: the cell of row 3, column 5 of the sheet (0, 0, 1, 1). -/
theorem C16_glyph_rectangles_interpolate_witness :
    (3 < 16 ∧ 5 < 16) ∧
    (PopulateFontGlyphs id []
        { width := 320, height := 320, s := 0, t := 0, p := 1, q := 1 })[
        ([] : List SpriteDef).length + 16 * 3 + 5]? =
      some
        { width := 20
          height := 20
          s := ((5 : Nat) : ℚ) / 16
          t := ((3 : Nat) : ℚ) / 16
          p := (((5 : Nat) : ℚ) + 1) / 16
          q := (((3 : Nat) : ℚ) + 1) / 16 } :=
  ⟨⟨by decide, by decide⟩,
   (C16_glyph_rectangles_interpolate [] {} 3 5 (by decide) (by decide)).2.2.2.2.2⟩

/-- C17 (counterexample). For a sheet of width -1 and height -17 the first glyph has
width 0 and height -1, while the floors of -1/16 and -17/16 are -1 and -2. -/
theorem C17_counterexample :
    ∃ gl : SpriteDef,
      (PopulateFontGlyphs id [] { width := -1, height := -17 })[0]? = some gl ∧
      gl.width = 0 ∧ ⌊(((-1 : Int) : ℚ)) / 16⌋ = -1 ∧ gl.width ≠ ⌊(((-1 : Int) : ℚ)) / 16⌋ ∧
      gl.height = -1 ∧ ⌊(((-17 : Int) : ℚ)) / 16⌋ = -2 ∧
      gl.height ≠ ⌊(((-17 : Int) : ℚ)) / 16⌋ := by
  have hget := PopulateFontGlyphs_getElem id [] { width := -1, height := -17 } 0 0
    (by decide) (by decide)
  have hf1 : ⌊(((-1 : Int) : ℚ)) / 16⌋ = -1 := by
    rw [Int.floor_eq_iff]
    norm_num
  have hf2 : ⌊(((-17 : Int) : ℚ)) / 16⌋ = -2 := by
    rw [Int.floor_eq_iff]
    norm_num
  refine ⟨fontGlyph id { width := -1, height := -17 } 0 0, hget, ?_, hf1, ?_, ?_, hf2, ?_⟩
  · show Int.tdiv (-1) 16 = 0
    decide
  · rw [hf1]
    show Int.tdiv (-1) 16 ≠ -1
    decide
  · show Int.tdiv (-17) 16 = -1
    decide
  · rw [hf2]
    show Int.tdiv (-17) 16 ≠ -2
    decide

/-- C17 (amended). Each of the 256 glyphs produced by `PopulateFontGlyphs` has the width
and the height of the sheet divided by 16 with the quotient rounded toward zero; this is
the floor of a sixteenth of the width whenever the width is not negative, and likewise
for the height. -/
theorem C17_glyph_size_truncated_sixteenth (rnd : ℚ → ℚ) (glyphs : List SpriteDef)
    (d : SpriteDef) (k : Nat) (hk : k < 256) :
    ∃ gl : SpriteDef, (PopulateFontGlyphs rnd glyphs d)[glyphs.length + k]? = some gl ∧
      gl.width = Int.tdiv d.width 16 ∧
      gl.height = Int.tdiv d.height 16 ∧
      (0 ≤ d.width → gl.width = ⌊(d.width : ℚ) / 16⌋) ∧
      (0 ≤ d.height → gl.height = ⌊(d.height : ℚ) / 16⌋) := by
  have hfloor : ∀ v : Int, 0 ≤ v → Int.tdiv v 16 = ⌊(v : ℚ) / 16⌋ := by
    intro v hv
    rw [Int.tdiv_eq_ediv hv (by decide)]
    have h := Rat.floor_intCast_div_natCast v 16
    simp only [Nat.cast_ofNat] at h
    exact h.symm
  have hget := PopulateFontGlyphs_getElem rnd glyphs d (k / 16) (k % 16)
    (by omega) (by omega)
  have hidx : glyphs.length + 16 * (k / 16) + k % 16 = glyphs.length + k := by omega
  rw [hidx] at hget
  exact ⟨_, hget, rfl, rfl, fun h => hfloor d.width h, fun h => hfloor d.height h⟩

/-- Witness of C17: the last glyph of a sheet of size 330 x 200 has size 20 x 12. -/
theorem C17_glyph_size_truncated_sixteenth_witness :
    255 < 256 ∧
    ∃ gl : SpriteDef,
      (PopulateFontGlyphs id [] { width := 330, height := 200 })[
        ([] : List SpriteDef).length + 255]? = some gl ∧
      gl.width = 20 ∧ gl.height = 12 := by
  obtain ⟨gl, hget, hw, hh, _, _⟩ :=
    C17_glyph_size_truncated_sixteenth id [] { width := 330, height := 200 } 255 (by decide)
  refine ⟨by decide, gl, hget, ?_, ?_⟩
  · rw [hw]
    decide
  · rw [hh]
    decide

end Petit2D.Catalog

/-! ## Shape batch: lemmas and claims -/

namespace Petit2D.Shape

theorem clamp_eq (v : ℚ) :
    (if (if v < 0 then 0 else v) > 32 then 32 else (if v < 0 then 0 else v)) =
      min (max v 0) 32 := by
  by_cases h0 : v < 0
  · rw [if_pos h0, max_eq_right (le_of_lt h0), if_neg (by norm_num), min_eq_left (by norm_num)]
  · rw [if_neg h0, max_eq_left (not_lt.mp h0)]
    by_cases h32 : v > 32
    · rw [if_pos h32, min_eq_right (le_of_lt h32)]
    · rw [if_neg h32, min_eq_left (not_lt.mp h32)]

/-- The two tests of `SetPointSize` and `SetLineWidth` on a finite request. -/
theorem clamp_finite (v : ℚ) :
    (if (FloatValue.finite 32).lt
          (if (FloatValue.finite v).lt (FloatValue.finite 0) then FloatValue.finite 0
            else FloatValue.finite v)
      then FloatValue.finite 32
      else (if (FloatValue.finite v).lt (FloatValue.finite 0) then FloatValue.finite 0
        else FloatValue.finite v)) =
      FloatValue.finite (min (max v 0) 32) := by
  rw [← clamp_eq]
  by_cases h0 : v < 0
  · simp only [FloatValue.lt, h0, decide_True, if_true]
    norm_num
  · simp only [FloatValue.lt, h0, decide_False, if_false, Bool.false_eq_true]
    by_cases h32 : v > 32
    · have h32b : (32 : ℚ) < v := h32
      simp [h32b]
    · have h32b : ¬ (32 : ℚ) < v := h32
      simp [h32b]

/-- C18 (counterexample). A NaN request fails both tests: `SetPointSize` and
`SetLineWidth` store the NaN and hand it to the device, and the value returned by
`GetPointSize` and `GetLineWidth` is then neither at least 0 nor at most 32. -/
theorem C18_counterexample :
    GetPointSize (SetPointSize init FloatValue.nan) = FloatValue.nan ∧
    (SetPointSize init FloatValue.nan).calls = [GLCall.pointSize FloatValue.nan] ∧
    GetLineWidth (SetLineWidth init FloatValue.nan) = FloatValue.nan ∧
    (SetLineWidth init FloatValue.nan).calls = [GLCall.lineWidth FloatValue.nan] ∧
    (FloatValue.finite 0).le (GetPointSize (SetPointSize init FloatValue.nan)) = false ∧
    (GetPointSize (SetPointSize init FloatValue.nan)).le (FloatValue.finite 32) = false ∧
    (FloatValue.finite 0).le (GetLineWidth (SetLineWidth init FloatValue.nan)) = false ∧
    (GetLineWidth (SetLineWidth init FloatValue.nan)).le (FloatValue.finite 32) = false :=
  ⟨rfl, rfl, rfl, rfl, rfl, rfl, rfl, rfl⟩

/-- C18 (amended). For every request that is not a NaN, `SetPointSize` and
`SetLineWidth` store the request clamped to [0, 32]: for a finite request `v`,
`GetPointSize` and `GetLineWidth` then return `min(max(v, 0), 32)`, which lies in
[0, 32]; plus infinity gives 32 and minus infinity gives 0; the device receives the
stored value; a request already in [0, 32] is stored unchanged; the requests -5 and 50
give 0 and 32.  A NaN request is stored and handed to the device as it is. -/
theorem C18_point_size_and_line_width_clamped (c : Context) (v : ℚ) :
    GetPointSize (SetPointSize c (FloatValue.finite v)) =
      FloatValue.finite (min (max v 0) 32) ∧
    GetLineWidth (SetLineWidth c (FloatValue.finite v)) =
      FloatValue.finite (min (max v 0) 32) ∧
    (0 ≤ min (max v 0) 32 ∧ min (max v 0) 32 ≤ 32) ∧
    (∀ request : FloatValue,
      (SetPointSize c request).calls =
        c.calls ++ [GLCall.pointSize (GetPointSize (SetPointSize c request))] ∧
      (SetLineWidth c request).calls =
        c.calls ++ [GLCall.lineWidth (GetLineWidth (SetLineWidth c request))]) ∧
    (0 ≤ v → v ≤ 32 →
      GetPointSize (SetPointSize c (FloatValue.finite v)) = FloatValue.finite v ∧
      GetLineWidth (SetLineWidth c (FloatValue.finite v)) = FloatValue.finite v) ∧
    GetPointSize (SetPointSize c (FloatValue.finite (-5))) = FloatValue.finite 0 ∧
    GetPointSize (SetPointSize c (FloatValue.finite 50)) = FloatValue.finite 32 ∧
    GetLineWidth (SetLineWidth c (FloatValue.finite (-5))) = FloatValue.finite 0 ∧
    GetLineWidth (SetLineWidth c (FloatValue.finite 50)) = FloatValue.finite 32 ∧
    GetPointSize (SetPointSize c FloatValue.posInf) = FloatValue.finite 32 ∧
    GetPointSize (SetPointSize c FloatValue.negInf) = FloatValue.finite 0 ∧
    GetLineWidth (SetLineWidth c FloatValue.posInf) = FloatValue.finite 32 ∧
    GetLineWidth (SetLineWidth c FloatValue.negInf) = FloatValue.finite 0 ∧
    GetPointSize (SetPointSize c FloatValue.nan) = FloatValue.nan ∧
    GetLineWidth (SetLineWidth c FloatValue.nan) = FloatValue.nan := by
  have hp : ∀ x : ℚ, GetPointSize (SetPointSize c (FloatValue.finite x)) =
      FloatValue.finite (min (max x 0) 32) := fun x => clamp_finite x
  have hl : ∀ x : ℚ, GetLineWidth (SetLineWidth c (FloatValue.finite x)) =
      FloatValue.finite (min (max x 0) 32) := fun x => clamp_finite x
  have hinf1 : (if (FloatValue.finite 32).lt
      (if FloatValue.posInf.lt (FloatValue.finite 0) then FloatValue.finite 0
        else FloatValue.posInf)
      then FloatValue.finite 32
      else (if FloatValue.posInf.lt (FloatValue.finite 0) then FloatValue.finite 0
        else FloatValue.posInf)) = FloatValue.finite 32 := by
    simp [FloatValue.lt]
  have hinf2 : (if (FloatValue.finite 32).lt
      (if FloatValue.negInf.lt (FloatValue.finite 0) then FloatValue.finite 0
        else FloatValue.negInf)
      then FloatValue.finite 32
      else (if FloatValue.negInf.lt (FloatValue.finite 0) then FloatValue.finite 0
        else FloatValue.negInf)) = FloatValue.finite 0 := by
    simp [FloatValue.lt]
  refine ⟨hp v, hl v, ⟨?_, ?_⟩, fun _ => ⟨rfl, rfl⟩, ?_, ?_, ?_, ?_, ?_, hinf1, hinf2,
    hinf1, hinf2, rfl, rfl⟩
  · exact le_min (le_max_right v 0) (by norm_num)
  · exact min_le_right _ _
  · intro h0 h32
    rw [hp, hl, max_eq_left h0, min_eq_left h32]
    exact ⟨rfl, rfl⟩
  · rw [hp]
    norm_num
  · rw [hp]
    norm_num
  · rw [hl]
    norm_num
  · rw [hl]
    norm_num

/-- Witness of C18: the request 7 on a fresh context is stored and handed on unchanged. -/
theorem C18_point_size_and_line_width_clamped_witness :
    ((0 : ℚ) ≤ 7 ∧ (7 : ℚ) ≤ 32) ∧
    GetPointSize (SetPointSize init (FloatValue.finite 7)) = FloatValue.finite 7 ∧
    GetLineWidth (SetLineWidth init (FloatValue.finite 7)) = FloatValue.finite 7 :=
  ⟨⟨by norm_num, by norm_num⟩,
   (C18_point_size_and_line_width_clamped init 7).2.2.2.2.1 (by norm_num) (by norm_num)⟩

theorem Begin_verticesCount (c : Context) (mapping : Option Buffer) :
    (Begin c mapping).verticesCount = 0 := by
  unfold Begin
  split <;> rfl

theorem Begin_shape_storage (c : Context) (mapping : Option Buffer) :
    (Begin c mapping).storage = mapping := by
  unfold Begin
  split <;> rfl

theorem Begin_calls (c : Context) (mapping : Option Buffer) :
    (Begin c mapping).calls = c.calls ++
      [GLCall.mapBufferRange 0 (sizeofVertex * MAX_VERTICES_PER_SHAPE_BATCH)] := by
  unfold Begin
  split <;> rfl

theorem Add_vertex_of_null (c : Context) (v : Vertex) (h : c.storage = none) : Add c v = c := by
  unfold Add
  rw [h]

theorem Add_vertex_of_full (c : Context) (v : Vertex)
    (h : MAX_VERTICES_PER_SHAPE_BATCH ≤ c.verticesCount) : Add c v = c := by
  unfold Add
  split
  · rfl
  · rw [if_pos h]

theorem Add_vertex_of_room (c : Context) (v : Vertex) (buf : Buffer) (hs : c.storage = some buf)
    (hlt : c.verticesCount < MAX_VERTICES_PER_SHAPE_BATCH) :
    Add c v =
      { c with
        storage := some (Function.update buf c.verticesCount v)
        verticesCount := c.verticesCount + 1 } := by
  unfold Add
  rw [hs]
  simp only
  rw [if_neg (not_le.mpr hlt)]

theorem Add_vertex_calls (c : Context) (v : Vertex) : (Add c v).calls = c.calls := by
  unfold Add
  split
  · rfl
  · split <;> rfl

theorem addAll_vertices_cons (c : Context) (v : Vertex) (vs : List Vertex) :
    addAll c (v :: vs) = addAll (Add c v) vs := rfl

theorem addAll_append (c : Context) (vs ws : List Vertex) :
    addAll c (vs ++ ws) = addAll (addAll c vs) ws := by
  unfold addAll
  rw [List.foldl_append]

theorem addAll_vertices_calls (vs : List Vertex) : ∀ c : Context, (addAll c vs).calls = c.calls := by
  induction vs with
  | nil => intro c; rfl
  | cons v vs ih => intro c; rw [addAll_vertices_cons, ih, Add_vertex_calls]

theorem addAll_of_full (vs : List Vertex) :
    ∀ c : Context, MAX_VERTICES_PER_SHAPE_BATCH ≤ c.verticesCount → addAll c vs = c := by
  induction vs with
  | nil => intro c _; rfl
  | cons v vs ih =>
    intro c h
    rw [addAll_vertices_cons, Add_vertex_of_full c v h]
    exact ih c h

/-- A run of `Add` calls that fits in the buffer: the counter advances by the length
of the run, vertex `i` of the run lands in slot `verticesCount + i`, every other slot
keeps its contents. -/
theorem addAll_fits (vs : List Vertex) :
    ∀ (c : Context) (buf : Buffer), c.storage = some buf →
      c.verticesCount + vs.length ≤ MAX_VERTICES_PER_SHAPE_BATCH →
      ∃ mem : Buffer, (addAll c vs).storage = some mem ∧
        (addAll c vs).verticesCount = c.verticesCount + vs.length ∧
        (∀ (i : Nat) (h : i < vs.length), mem (c.verticesCount + i) = vs[i]) ∧
        (∀ j : Int, (j < c.verticesCount ∨ c.verticesCount + vs.length ≤ j) →
          mem j = buf j) := by
  induction vs with
  | nil =>
    intro c buf hs _
    exact ⟨buf, hs, by simp [addAll], fun i h => absurd h (Nat.not_lt_zero i), fun _ _ => rfl⟩
  | cons v vs ih =>
    intro c buf hs hle
    simp only [List.length_cons, Nat.cast_add, Nat.cast_one] at hle
    have hlt : c.verticesCount < MAX_VERTICES_PER_SHAPE_BATCH := by omega
    have hA := Add_vertex_of_room c v buf hs hlt
    obtain ⟨mem, hm, hcount, hin, hout⟩ :=
      ih (Add c v) _ (by rw [hA]) (by rw [hA]; simp only; omega)
    rw [hA] at hin hout hcount
    simp only at hin hout hcount
    refine ⟨mem, by rw [addAll_vertices_cons]; exact hm, ?_, ?_, ?_⟩
    · rw [addAll_vertices_cons, hA, hcount]
      simp only [List.length_cons, Nat.cast_add, Nat.cast_one]
      ring
    · intro i h
      cases i with
      | zero =>
        simp only [Nat.cast_zero, add_zero, List.getElem_cons_zero]
        rw [hout c.verticesCount (Or.inl (by omega)), Function.update_same]
      | succ k =>
        have hk : k < vs.length := by simpa using h
        have hthis := hin k hk
        simp only [List.getElem_cons_succ, Nat.cast_add, Nat.cast_one]
        rw [← hthis]
        congr 1
        ring
    · intro j hj
      simp only [List.length_cons, Nat.cast_add, Nat.cast_one] at hj
      rw [hout j (by omega), Function.update_noteq (by omega)]

/-- The batch after a successful `Begin` and a run of `Add` calls of any length: the
counter is the length of the run saturated at capacity, the vertices below capacity are
in their slots in order, the other slots keep their contents. -/
theorem addAll_after_Begin (c : Context) (buf : Buffer) (vs : List Vertex) :
    ∃ mem : Buffer, (addAll (Begin c (some buf)) vs).storage = some mem ∧
      (addAll (Begin c (some buf)) vs).verticesCount =
        min (vs.length : Int) MAX_VERTICES_PER_SHAPE_BATCH ∧
      (∀ (i : Nat) (h : i < vs.length), (i : Int) < MAX_VERTICES_PER_SHAPE_BATCH →
        mem i = vs[i]) ∧
      (∀ j : Int, (j < 0 ∨ min (vs.length : Int) MAX_VERTICES_PER_SHAPE_BATCH ≤ j) →
        mem j = buf j) := by
  have hb : (Begin c (some buf)).storage = some buf := Begin_shape_storage c _
  have h0 : (Begin c (some buf)).verticesCount = 0 := Begin_verticesCount c (some buf)
  have hlen : (vs.take 4096).length = min 4096 vs.length := List.length_take 4096 vs
  have hfit : (Begin c (some buf)).verticesCount + ((vs.take 4096).length : Int) ≤
      MAX_VERTICES_PER_SHAPE_BATCH := by
    rw [h0, hlen]
    unfold MAX_VERTICES_PER_SHAPE_BATCH
    omega
  obtain ⟨mem, hm, hcount, hin, hout⟩ :=
    addAll_fits (vs.take 4096) (Begin c (some buf)) buf hb hfit
  rw [h0, zero_add] at hcount
  have hsame : addAll (Begin c (some buf)) vs = addAll (Begin c (some buf)) (vs.take 4096) := by
    conv_lhs => rw [← List.take_append_drop 4096 vs]
    rw [addAll_append]
    by_cases hshort : vs.length ≤ 4096
    · rw [List.drop_eq_nil_of_le hshort]
      rfl
    · apply addAll_of_full
      rw [hcount, hlen]
      unfold MAX_VERTICES_PER_SHAPE_BATCH
      omega
  have hmin : ((vs.take 4096).length : Int) =
      min (vs.length : Int) MAX_VERTICES_PER_SHAPE_BATCH := by
    rw [hlen]
    unfold MAX_VERTICES_PER_SHAPE_BATCH
    omega
  rw [hsame]
  refine ⟨mem, hm, by rw [hcount, hmin], ?_, ?_⟩
  · intro i hi hcap
    unfold MAX_VERTICES_PER_SHAPE_BATCH at hcap
    have hi2 : i < (vs.take 4096).length := by
      rw [hlen]
      omega
    have hslot := hin i hi2
    rw [h0, zero_add] at hslot
    rw [hslot, List.getElem_take]
  · intro j hj
    apply hout j
    rw [h0, zero_add, hmin]
    exact hj

/-- C19. After a successful `Begin` and `n` calls of `Add` the vertex counter is
`min(n, 4096)`, slot `i` holds vertex `i` (its fields x, y, r, g, b, a) for every
`i < min(n, 4096)`, the other slots keep their contents, and an `Add` made at counter
4096 or with a null `storage` changes nothing. -/
theorem C19_shape_batch_slots_and_capacity (c : Context) (buf : Buffer)
    (vs : List Vertex) :
    (∃ mem : Buffer, (addAll (Begin c (some buf)) vs).storage = some mem ∧
      (addAll (Begin c (some buf)) vs).verticesCount = min (vs.length : Int) 4096 ∧
      (∀ (i : Nat) (h : i < vs.length), (i : Int) < min (vs.length : Int) 4096 →
        mem i =
          { x := vs[i].x, y := vs[i].y, r := vs[i].r, g := vs[i].g, b := vs[i].b,
            a := vs[i].a }) ∧
      (∀ j : Int, (j < 0 ∨ min (vs.length : Int) 4096 ≤ j) → mem j = buf j)) ∧
    (∀ (c2 : Context) (v : Vertex),
      (c2.verticesCount = 4096 ∨ c2.storage = none) → Add c2 v = c2) := by
  constructor
  · obtain ⟨mem, hm, hcount, hin, hout⟩ := addAll_after_Begin c buf vs
    refine ⟨mem, hm, hcount, ?_, hout⟩
    intro i hi hcap
    have hlt : (i : Int) < MAX_VERTICES_PER_SHAPE_BATCH :=
      lt_of_lt_of_le hcap (min_le_right _ _)
    rw [hin i hi hlt]
  · intro c2 v h
    rcases h with h | h
    · apply Add_vertex_of_full
      rw [h]
      decide
    · exact Add_vertex_of_null c2 v h

/-- Witness of C19: two vertices added to a fresh batch, and an `Add` on the initial
context, whose `storage` is null. -/
theorem C19_shape_batch_slots_and_capacity_witness :
    (addAll (Begin init (some (fun _ => {}))) [{ r := 1 }, { r := 2 }]).verticesCount = 2 ∧
    ((init.verticesCount = 4096 ∨ init.storage = none) ∧ Add init { r := 1 } = init) := by
  have h := C19_shape_batch_slots_and_capacity init (fun _ => {}) [{ r := 1 }, { r := 2 }]
  obtain ⟨⟨mem, _, hcount, _, _⟩, hdrop⟩ := h
  refine ⟨?_, Or.inr rfl, hdrop init { r := 1 } (Or.inr rfl)⟩
  rw [hcount]
  decide

theorem Render_calls (c : Context) (drawType : Int) :
    (Render c drawType).calls =
      if c.verticesCount > 0 then
        c.calls ++ [GLCall.drawArrays (getDrawType drawType) 0 c.verticesCount]
      else c.calls := by
  unfold Render
  split <;> rfl

/-- C20. `Render` issues exactly one non-instanced draw over the vertex count when the
count is positive and no call otherwise; after a successful `Begin`, `n` calls of `Add`
and `End` the count is `min(n, 4096)`.  The values 0 to 6 of `DrawType` select points,
lines, line strip, line loop, triangles, triangle strip and triangle fan, which are
pairwise distinct, and every other value selects points. -/
theorem C20_render_one_draw_per_topology (c : Context) (drawType : Int) (buf : Buffer)
    (vs : List Vertex) :
    (Render c drawType).calls =
      (if c.verticesCount > 0 then
        c.calls ++ [GLCall.drawArrays (getDrawType drawType) 0 c.verticesCount]
      else c.calls) ∧
    (Render (End (addAll (Begin c (some buf)) vs)) drawType).calls =
      (if vs = [] then (End (addAll (Begin c (some buf)) vs)).calls
      else (End (addAll (Begin c (some buf)) vs)).calls ++
        [GLCall.drawArrays (getDrawType drawType) 0 (min (vs.length : Int) 4096)]) ∧
    getDrawType 0 = GL_POINTS ∧ getDrawType 1 = GL_LINES ∧
    getDrawType 2 = GL_LINE_STRIP ∧ getDrawType 3 = GL_LINE_LOOP ∧
    getDrawType 4 = GL_TRIANGLES ∧ getDrawType 5 = GL_TRIANGLE_STRIP ∧
    getDrawType 6 = GL_TRIANGLE_FAN ∧
    ([0, 1, 2, 3, 4, 5, 6].map getDrawType).Nodup ∧
    ((drawType < 0 ∨ 6 < drawType) → getDrawType drawType = GL_POINTS) := by
  refine ⟨Render_calls c drawType, ?_, rfl, rfl, rfl, rfl, rfl, rfl, rfl, by decide, ?_⟩
  · obtain ⟨mem, _, hcount, _, _⟩ := addAll_after_Begin c buf vs
    have hc : (End (addAll (Begin c (some buf)) vs)).verticesCount =
        min (vs.length : Int) 4096 := hcount
    rw [Render_calls, hc]
    cases vs with
    | nil => simp
    | cons v vs =>
      have hpos : min (((v :: vs).length : Nat) : Int) 4096 > 0 := by
        simp only [List.length_cons, Nat.cast_add, Nat.cast_one]
        omega
      rw [if_pos hpos, if_neg (List.cons_ne_nil v vs)]
  · intro h
    unfold getDrawType
    rw [if_neg (by omega), if_neg (by omega), if_neg (by omega), if_neg (by omega),
      if_neg (by omega), if_neg (by omega)]

/-- Witness of C20: the value 7 of the topology on a batch of two vertices. -/
theorem C20_render_one_draw_per_topology_witness :
    ((7 : Int) < 0 ∨ (6 : Int) < 7) ∧ getDrawType 7 = GL_POINTS ∧
    (Render (End (addAll (Begin init (some (fun _ => {}))) [{}, {}])) 7).calls =
      (End (addAll (Begin init (some (fun _ => {}))) [{}, {}])).calls ++
        [GLCall.drawArrays (getDrawType 7) 0 (min ((2 : Nat) : Int) 4096)] :=
  have h := C20_render_one_draw_per_topology init 7 (fun _ => {}) [{}, {}]
  ⟨Or.inr (by decide), h.2.2.2.2.2.2.2.2.2.2 (Or.inr (by decide)), h.2.1⟩

end Petit2D.Shape

/-! ## Device binding cache: claims -/

namespace Petit2D

/-- The framebuffer id that an argument of `SetFrameBuffer` stands for: 0 for a null
pointer. -/
theorem SetFrameBuffer_eq (s : BindingState) (frameBuffer : Option FrameBuffer.FrameBuffer) :
    SetFrameBuffer s frameBuffer =
      if s.frameBuffer ≠ (frameBuffer.map FrameBuffer.FrameBuffer.frameBufferId).getD 0 then
        { (s.gl (GLCall.bindFramebuffer
            ((frameBuffer.map FrameBuffer.FrameBuffer.frameBufferId).getD 0))) with
          frameBuffer := (frameBuffer.map FrameBuffer.FrameBuffer.frameBufferId).getD 0 }
      else s := by
  cases frameBuffer <;> rfl

theorem SetTexture_of_cached (s : BindingState) (texture : Texture.Texture) (unit : Nat)
    (h : s.texture unit = texture.id) : SetTexture s texture unit = s := by
  unfold SetTexture
  rw [if_neg (not_not.mpr h)]

theorem SetTexture_of_uncached (s : BindingState) (texture : Texture.Texture) (unit : Nat)
    (h : s.texture unit ≠ texture.id) :
    SetTexture s texture unit =
      { ((s.gl (GLCall.activeTexture unit)).gl (GLCall.bindTexture texture.id)) with
        texture := Function.update s.texture unit texture.id } := by
  unfold SetTexture
  rw [if_pos h]

theorem SetFrameBuffer_of_cached (s : BindingState)
    (frameBuffer : Option FrameBuffer.FrameBuffer)
    (h : s.frameBuffer = (frameBuffer.map FrameBuffer.FrameBuffer.frameBufferId).getD 0) :
    SetFrameBuffer s frameBuffer = s := by
  rw [SetFrameBuffer_eq, if_neg (not_not.mpr h)]

/-- C21. `SetTexture` issues its device calls (select the unit, bind the texture) exactly
when the cached id of the unit differs from the id of the texture; afterwards the cached
id of that unit is the id of the texture and the cached ids of the other units and of the
framebuffer are as before.  `SetFrameBuffer` does the same on the framebuffer slot, a
null argument standing for id 0.  Repeating either call with the same argument changes
nothing, so it issues no device call. -/
theorem C21_binding_cache_elides_redundant_binds (s : BindingState)
    (texture : Texture.Texture) (unit : Fin 4)
    (frameBuffer : Option FrameBuffer.FrameBuffer) :
    (SetTexture s texture unit).device.calls =
      (if s.texture unit ≠ texture.id then
        s.device.calls ++ [GLCall.activeTexture unit, GLCall.bindTexture texture.id]
      else s.device.calls) ∧
    (SetTexture s texture unit).texture unit = texture.id ∧
    (∀ other : Nat, other ≠ unit → (SetTexture s texture unit).texture other = s.texture other) ∧
    (SetTexture s texture unit).frameBuffer = s.frameBuffer ∧
    SetTexture (SetTexture s texture unit) texture unit = SetTexture s texture unit ∧
    (SetFrameBuffer s frameBuffer).device.calls =
      (if s.frameBuffer ≠ (frameBuffer.map FrameBuffer.FrameBuffer.frameBufferId).getD 0 then
        s.device.calls ++ [GLCall.bindFramebuffer
          ((frameBuffer.map FrameBuffer.FrameBuffer.frameBufferId).getD 0)]
      else s.device.calls) ∧
    (SetFrameBuffer s frameBuffer).frameBuffer =
      (frameBuffer.map FrameBuffer.FrameBuffer.frameBufferId).getD 0 ∧
    (SetFrameBuffer s frameBuffer).texture = s.texture ∧
    SetFrameBuffer (SetFrameBuffer s frameBuffer) frameBuffer = SetFrameBuffer s frameBuffer := by
  have hT : (SetTexture s texture unit).texture unit = texture.id := by
    unfold SetTexture
    split
    · simp
    · rename_i h
      exact not_not.mp h
  have hF : (SetFrameBuffer s frameBuffer).frameBuffer =
      (frameBuffer.map FrameBuffer.FrameBuffer.frameBufferId).getD 0 := by
    rw [SetFrameBuffer_eq]
    split
    · rfl
    · rename_i h
      exact not_not.mp h
  refine ⟨?_, hT, ?_, ?_, ?_, ?_, hF, ?_, ?_⟩
  · unfold SetTexture
    split
    · simp [BindingState.gl, Device.issue]
    · rfl
  · intro other hne
    unfold SetTexture
    split
    · simp [Function.update_noteq hne]
    · rfl
  · unfold SetTexture
    split <;> rfl
  · exact SetTexture_of_cached _ texture unit hT
  · rw [SetFrameBuffer_eq]
    split
    · simp [BindingState.gl, Device.issue]
    · rfl
  · rw [SetFrameBuffer_eq]
    split <;> rfl
  · exact SetFrameBuffer_of_cached _ frameBuffer hF

theorem CacheConsistent_init : CacheConsistent BindingState.init :=
  ⟨fun _ _ => rfl, rfl⟩

theorem CacheConsistent_SetTexture (s : BindingState) (texture : Texture.Texture)
    (unit : Nat) (h : CacheConsistent s) : CacheConsistent (SetTexture s texture unit) := by
  unfold SetTexture
  split
  · refine ⟨?_, h.2⟩
    intro u hu
    simp only [BindingState.gl, Device.issue, Function.update_apply]
    split
    · rfl
    · exact h.1 u hu
  · exact h

theorem CacheConsistent_SetFrameBuffer (s : BindingState)
    (frameBuffer : Option FrameBuffer.FrameBuffer) (h : CacheConsistent s) :
    CacheConsistent (SetFrameBuffer s frameBuffer) := by
  rw [SetFrameBuffer_eq]
  split
  · exact ⟨h.1, rfl⟩
  · exact h

theorem CacheConsistent_bindOnUnit0 (s : BindingState) (texture : Texture.Texture)
    (h : CacheConsistent s) : CacheConsistent (Texture.bindOnUnit0 s texture) := by
  unfold Texture.bindOnUnit0
  split
  · refine ⟨?_, h.2⟩
    intro u hu
    simp only [BindingState.gl, Device.issue, Function.update_apply]
    split
    · rfl
    · exact h.1 u hu
  · exact h

theorem CacheConsistent_texImage2D (s : BindingState) (f : Nat) (w h : Int) (t d : Nat)
    (hs : CacheConsistent s) : CacheConsistent (s.gl (GLCall.texImage2D f w h t d)) :=
  ⟨hs.1, hs.2⟩

theorem CacheConsistent_texParameteri (s : BindingState) (pname param : Nat)
    (hs : CacheConsistent s) : CacheConsistent (s.gl (GLCall.texParameteri pname param)) :=
  ⟨hs.1, hs.2⟩

/-- The calls that keep the cache consistent with the device: every binding function
but the two `Destroy`. -/
theorem CacheConsistent_preserved (s : BindingState) (texture : Texture.Texture)
    (unit : Fin 4) (frameBuffer : Option FrameBuffer.FrameBuffer)
    (fb : FrameBuffer.FrameBuffer) (image : Option (Int × Int)) (a b c d e : Int)
    (h : CacheConsistent s) :
    CacheConsistent (SetTexture s texture unit) ∧
    CacheConsistent (SetFrameBuffer s frameBuffer) ∧
    CacheConsistent (Texture.InitFile s texture image).1 ∧
    CacheConsistent (Texture.Init s texture a b c d e).1 ∧
    CacheConsistent (Texture.SetWrap s texture a b) ∧
    CacheConsistent (Texture.SetFilter s texture a b) ∧
    CacheConsistent (FrameBuffer.Init s fb texture) := by
  have h0 := CacheConsistent_bindOnUnit0 s texture h
  refine ⟨CacheConsistent_SetTexture s texture unit h,
    CacheConsistent_SetFrameBuffer s frameBuffer h, ?_,
    CacheConsistent_texImage2D _ _ _ _ _ _ h0,
    CacheConsistent_texParameteri _ _ _ (CacheConsistent_texParameteri _ _ _ h0),
    CacheConsistent_texParameteri _ _ _ (CacheConsistent_texParameteri _ _ _ h0),
    ⟨h.1, rfl⟩⟩
  cases image with
  | none => exact h
  | some wh => exact CacheConsistent_texImage2D _ _ _ _ _ _ h0

/-- C23 (the code at the failing input). From the initial state, binding a texture of
non-zero id with `SetTexture` on unit 0 and then destroying it leaves the cache holding
the id for unit 0 while the device, which reverts the binding of a deleted texture, has
texture 0 bound there; likewise `FrameBuffer::Init` followed by `FrameBuffer::Destroy`
leaves the cached framebuffer id while the device has framebuffer 0 bound.  Before the
`Destroy` the cache agrees with the device. -/
theorem C23_destroy_leaves_stale_cache (texture : Texture.Texture)
    (frameBuffer : FrameBuffer.FrameBuffer) (target : Texture.Texture)
    (ht : texture.id ≠ 0) (hf : frameBuffer.frameBufferId ≠ 0) :
    CacheConsistent (SetTexture BindingState.init texture 0) ∧
    (Texture.Destroy (SetTexture BindingState.init texture 0) (some texture)).texture 0
      = texture.id ∧
    (Texture.Destroy (SetTexture BindingState.init texture 0)
      (some texture)).device.boundTexture 0 = 0 ∧
    ¬ CacheConsistent (Texture.Destroy (SetTexture BindingState.init texture 0) (some texture)) ∧
    CacheConsistent (FrameBuffer.Init BindingState.init frameBuffer target) ∧
    (FrameBuffer.Destroy (FrameBuffer.Init BindingState.init frameBuffer target)
      (some frameBuffer)).frameBuffer = frameBuffer.frameBufferId ∧
    (FrameBuffer.Destroy (FrameBuffer.Init BindingState.init frameBuffer target)
      (some frameBuffer)).device.boundFramebuffer = 0 ∧
    ¬ CacheConsistent (FrameBuffer.Destroy (FrameBuffer.Init BindingState.init frameBuffer target)
      (some frameBuffer)) := by
  have hne : BindingState.init.texture 0 ≠ texture.id := fun h => ht h.symm
  have hS := SetTexture_of_uncached BindingState.init texture 0 hne
  have h1 : (Texture.Destroy (SetTexture BindingState.init texture 0) (some texture)).texture 0
      = texture.id := by
    rw [hS]
    simp [Texture.Destroy, BindingState.gl]
  have h2 : (Texture.Destroy (SetTexture BindingState.init texture 0)
      (some texture)).device.boundTexture 0 = 0 := by
    rw [hS]
    simp [Texture.Destroy, BindingState.gl, Device.issue, BindingState.init]
  have h3 : (FrameBuffer.Destroy (FrameBuffer.Init BindingState.init frameBuffer target)
      (some frameBuffer)).frameBuffer = frameBuffer.frameBufferId := rfl
  have h4 : (FrameBuffer.Destroy (FrameBuffer.Init BindingState.init frameBuffer target)
      (some frameBuffer)).device.boundFramebuffer = 0 := by
    simp [FrameBuffer.Destroy, FrameBuffer.Init, BindingState.gl, Device.issue]
  refine ⟨CacheConsistent_SetTexture _ texture 0 CacheConsistent_init, h1, h2, ?_,
    ⟨fun _ _ => rfl, rfl⟩, h3, h4, ?_⟩
  · intro hc
    have h0 := hc.1 0 (by decide)
    rw [h1, h2] at h0
    exact ht h0
  · intro hc
    have h0 := hc.2
    rw [h3, h4] at h0
    exact hf h0

/-- Witness of C23: the texture of id 1 and the framebuffer of id 1. -/
theorem C23_destroy_leaves_stale_cache_witness :
    ((1 : Nat) ≠ 0 ∧ (1 : Nat) ≠ 0) ∧
    (Texture.Destroy (SetTexture BindingState.init { id := 1 } 0) (some { id := 1 })).texture 0
      = 1 ∧
    (Texture.Destroy (SetTexture BindingState.init { id := 1 } 0)
      (some { id := 1 })).device.boundTexture 0 = 0 ∧
    (FrameBuffer.Destroy
      (FrameBuffer.Init BindingState.init { frameBufferId := 1, renderBufferId := 1 } {})
      (some { frameBufferId := 1, renderBufferId := 1 })).frameBuffer = 1 ∧
    (FrameBuffer.Destroy
      (FrameBuffer.Init BindingState.init { frameBufferId := 1, renderBufferId := 1 } {})
      (some { frameBufferId := 1, renderBufferId := 1 })).device.boundFramebuffer = 0 :=
  have h := C23_destroy_leaves_stale_cache { id := 1 }
    { frameBufferId := 1, renderBufferId := 1 } {} (by decide) (by decide)
  ⟨⟨by decide, by decide⟩, h.2.1, h.2.2.1, h.2.2.2.2.2.1, h.2.2.2.2.2.2.1⟩

/-- C24 (the code at the failing input). From the initial state, after `SetTexture` of a
texture `a` on unit 0 and of a different texture `b` on unit 1, the active unit of the
device is unit 1 with `b` bound, and the cache holds the id of `a` for unit 0; so
`SetWrap`, `SetFilter` and `Init` called for `a` skip the bind and their parameter and
image calls act on `b`. -/
theorem C24_configuration_reaches_other_texture (a b : Texture.Texture)
    (ha : a.id ≠ 0) (hb : b.id ≠ 0) (hab : a.id ≠ b.id) (v1 v2 v3 v4 v5 : Int) :
    (SetTexture (SetTexture BindingState.init a 0) b 1).device.activeUnit = 1 ∧
    (SetTexture (SetTexture BindingState.init a 0) b 1).device.boundTexture 1 = b.id ∧
    (SetTexture (SetTexture BindingState.init a 0) b 1).texture 0 = a.id ∧
    (Texture.SetWrap (SetTexture (SetTexture BindingState.init a 0) b 1) a v1 v2).device.written
      = [b.id, b.id] ∧
    (Texture.SetFilter (SetTexture (SetTexture BindingState.init a 0) b 1) a v1 v2).device.written
      = [b.id, b.id] ∧
    (Texture.Init (SetTexture (SetTexture BindingState.init a 0) b 1) a v1 v2 v3 v4
      v5).1.device.written = [b.id] ∧
    a.id ∉ (Texture.SetWrap (SetTexture (SetTexture BindingState.init a 0) b 1) a v1
      v2).device.written := by
  have hS1 := SetTexture_of_uncached BindingState.init a 0 (fun h => ha h.symm)
  have h1 : (SetTexture BindingState.init a 0).texture 1 ≠ b.id := by
    rw [hS1]
    intro h
    apply hb
    rw [← h]
    rfl
  have hS2 := SetTexture_of_uncached (SetTexture BindingState.init a 0) b 1 h1
  have hc0 : (SetTexture (SetTexture BindingState.init a 0) b 1).texture 0 = a.id := by
    rw [hS2, hS1]
    simp [Function.update_apply]
  have hbind : Texture.bindOnUnit0 (SetTexture (SetTexture BindingState.init a 0) b 1) a =
      SetTexture (SetTexture BindingState.init a 0) b 1 := by
    unfold Texture.bindOnUnit0
    rw [if_neg (not_not.mpr hc0)]
  have hact : (SetTexture (SetTexture BindingState.init a 0) b 1).device.activeUnit = 1 := by
    rw [hS2]
    rfl
  have hbound : (SetTexture (SetTexture BindingState.init a 0) b 1).device.boundTexture 1
      = b.id := by
    rw [hS2]
    simp [BindingState.gl, Device.issue]
  have hwr : (SetTexture (SetTexture BindingState.init a 0) b 1).device.written = [] := by
    rw [hS2, hS1]
    rfl
  have hwrap : (Texture.SetWrap (SetTexture (SetTexture BindingState.init a 0) b 1) a v1
      v2).device.written = [b.id, b.id] := by
    unfold Texture.SetWrap
    rw [hbind]
    simp [BindingState.gl, Device.issue, hact, hbound, hwr]
  refine ⟨hact, hbound, hc0, hwrap, ?_, ?_, ?_⟩
  · unfold Texture.SetFilter
    rw [hbind]
    simp [BindingState.gl, Device.issue, hact, hbound, hwr]
  · unfold Texture.Init
    rw [hbind]
    simp [BindingState.gl, Device.issue, hact, hbound, hwr]
  · rw [hwrap]
    simp [hab]

/-- Witness of C24: the textures of ids 1 and 2. -/
theorem C24_configuration_reaches_other_texture_witness :
    ((1 : Nat) ≠ 0 ∧ (2 : Nat) ≠ 0 ∧ (1 : Nat) ≠ 2) ∧
    (Texture.SetWrap (SetTexture (SetTexture BindingState.init { id := 1 } 0) { id := 2 } 1)
      { id := 1 } 0 1).device.written = [2, 2] :=
  have h := C24_configuration_reaches_other_texture { id := 1 } { id := 2 }
    (by decide) (by decide) (by decide) 0 1 0 0 0
  ⟨⟨by decide, by decide, by decide⟩, h.2.2.2.1⟩

end Petit2D

/-! ## Sprite batch: flush range and narrowing -/

namespace Petit2D.Sprite

/-- C22. `End` flushes the byte range that starts at offset 0 and has length
`c * sizeof(SpriteInstance)`, `c` being the counter, then releases the mapping, and
leaves the counter unchanged, so that a following `Render` draws `c` instances.  In
every state reached from the initial one the flushed length is at most the mapped length
`16384 * sizeof(SpriteInstance)`. -/
theorem C22_end_flushes_written_range (rnd : ℚ → ℚ) (c : Context) (ops : List Op) :
    (End c).calls = c.calls ++
      [GLCall.flushMappedBufferRange 0 (sizeofSpriteInstance * c.spriteCount),
       GLCall.unmapBuffer] ∧
    (End c).spriteCount = c.spriteCount ∧
    (Render (End c)).calls =
      (if c.spriteCount > 0 then
        (End c).calls ++ [GLCall.drawArraysInstanced GL_TRIANGLE_STRIP 0 4 c.spriteCount]
      else (End c).calls) ∧
    sizeofSpriteInstance = 40 ∧
    0 ≤ sizeofSpriteInstance * (run rnd init ops).spriteCount ∧
    sizeofSpriteInstance * (run rnd init ops).spriteCount ≤
      sizeofSpriteInstance * MAX_SPRITES_PER_SPRITE_BATCH ∧
    (Begin c none).calls = c.calls ++
      [GLCall.mapBufferRange 0 (sizeofSpriteInstance * MAX_SPRITES_PER_SPRITE_BATCH)] := by
  obtain ⟨h1, h2, _, _⟩ := Bounded_run rnd ops init Bounded_init
  refine ⟨rfl, rfl, ?_, rfl, ?_, ?_, ?_⟩
  · have hc : (End c).spriteCount = c.spriteCount := rfl
    by_cases hpos : c.spriteCount > 0
    · rw [if_pos hpos]
      unfold Render
      rw [if_pos (by rw [hc]; exact hpos)]
      rfl
    · rw [if_neg hpos]
      unfold Render
      rw [if_neg (by rw [hc]; exact hpos)]
  · unfold sizeofSpriteInstance
    omega
  · unfold sizeofSpriteInstance MAX_SPRITES_PER_SPRITE_BATCH at *
    omega
  · unfold Begin
    split <;> rfl

theorem toShort_facts (v : Int) :
    (-32768 ≤ v → v ≤ 32767 → toShort v = v) ∧
    -32768 ≤ toShort v ∧ toShort v ≤ 32767 ∧
    (v - toShort v) % 65536 = 0 ∧
    ((v < -32768 ∨ 32767 < v) → toShort v ≠ v) := by
  unfold toShort
  refine ⟨?_, ?_, ?_, ?_, ?_⟩ <;> omega

/-- C26. `Add` stores the width and the height narrowed to signed 16 bits: a value
between -32768 and 32767 is stored unchanged; a value outside that range is stored
reduced modulo 2^16 into [-32768, 32767], so the stored value differs from the
record; 40000 is stored as -25536. -/
theorem C26_add_narrows_size_to_short (rnd : ℚ → ℚ) (c : Context) (buf : Buffer)
    (r : Sprite) :
    (∃ mem : Buffer, (Add rnd (Begin c (some buf)) r).storage = some mem ∧
      (mem 0).w = toShort r.width ∧ (mem 0).h = toShort r.height) ∧
    (∀ v : Int,
      (-32768 ≤ v → v ≤ 32767 → toShort v = v) ∧
      -32768 ≤ toShort v ∧ toShort v ≤ 32767 ∧
      (v - toShort v) % 65536 = 0 ∧
      ((v < -32768 ∨ 32767 < v) → toShort v ≠ v)) ∧
    toShort 40000 = -25536 := by
  have hs : (Begin c (some buf)).storage = some buf := Begin_storage c _
  have h0 : (Begin c (some buf)).spriteCount = 0 := Begin_spriteCount c (some buf)
  have hA := Add_of_room rnd (Begin c (some buf)) r buf hs (by rw [h0]; decide)
  refine ⟨?_, toShort_facts, by decide⟩
  rw [hA]
  refine ⟨_, rfl, ?_, ?_⟩ <;> rw [h0, Function.update_same]

/-- Witness of C26: the widths 300 and 40000 added to a fresh batch. -/
theorem C26_add_narrows_size_to_short_witness :
    (((-32768 : Int) ≤ 300 ∧ (300 : Int) ≤ 32767) ∧ toShort 300 = 300) ∧
    ((((40000 : Int) < -32768 ∨ (32767 : Int) < 40000)) ∧ toShort 40000 ≠ 40000) ∧
    ∃ mem : Buffer,
      (Add id (Begin init (some (fun _ => {}))) { width := 40000, height := 300 }).storage
        = some mem ∧
      (mem 0).w = toShort 40000 ∧ (mem 0).h = toShort 300 :=
  have h := C26_add_narrows_size_to_short id init (fun _ => {})
    { width := 40000, height := 300 }
  ⟨⟨⟨by decide, by decide⟩, (h.2.1 300).1 (by decide) (by decide)⟩,
   ⟨Or.inr (by decide), (h.2.1 40000).2.2.2.2 (Or.inr (by decide))⟩, h.1⟩

end Petit2D.Sprite

/-! ## Atlas catalog: files with repeated names -/

namespace Petit2D.Catalog

/-- One iteration of the loop on the bytes of a definition with a raw name field. -/
theorem readSprites_succ_raw (floatOfBits : Nat → ℚ) (count : Nat) (e : RawEntry)
    (rest : List Nat) (m : SpriteMap) (h : WellFormedRawEntry e) :
    readSprites floatOfBits (count + 1) { data := encodeRawEntry e ++ rest, good := true } m =
      readSprites floatOfBits count { data := rest, good := true }
        (mapInsert m e.name (e.spriteDef floatOfBits)) := by
  obtain ⟨hlen, _, _, hw, hh, hs, ht, hp, hq⟩ := h
  have hdef := storeSpriteDef_encode floatOfBits
    { name := [], width := e.width, height := e.height, s := e.s, t := e.t, p := e.p, q := e.q }
    ⟨⟨Nat.zero_le 31, fun ch hch => absurd hch (List.not_mem_nil ch)⟩, hw, hh, hs, ht, hp, hq⟩
  unfold encodeRawEntry
  rw [readSprites, List.append_assoc, read_append _ _ 32 hlen]
  simp only
  rw [read_append (bytesOfInt32 e.width ++ bytesOfInt32 e.height ++
      bytesOfUInt32 e.s ++ bytesOfUInt32 e.t ++ bytesOfUInt32 e.p ++ bytesOfUInt32 e.q)
    rest 24 rfl]
  simp only
  rw [overlay_full _ _ (by rw [hlen, List.length_replicate])]
  exact congrArg (fun d => readSprites floatOfBits count { data := rest, good := true }
    (mapInsert m (cstring e.nameField) d)) hdef

/-- The loop on the bytes of a list of definitions with raw name fields inserts them in
file order. -/
theorem readSprites_raw (floatOfBits : Nat → ℚ) (entries : List RawEntry) :
    ∀ (m : SpriteMap), (∀ e ∈ entries, WellFormedRawEntry e) →
      readSprites floatOfBits entries.length
          { data := (entries.map encodeRawEntry).flatten, good := true } m =
        entries.foldl (fun acc e => mapInsert acc e.name (e.spriteDef floatOfBits)) m := by
  induction entries with
  | nil => intro m _; rfl
  | cons e es ih =>
    intro m hwf
    simp only [List.map_cons, List.flatten_cons, List.length_cons, List.foldl_cons]
    rw [readSprites_succ_raw floatOfBits _ e _ m (hwf e (List.mem_cons_self e es))]
    exact ih _ (fun x hx => hwf x (List.mem_cons_of_mem e hx))

/-- The catalog produced by `Init` from a file of definitions with raw name fields. -/
theorem Init_encodeRawFile (floatOfBits : Nat → ℚ) (catalog : Catalog) (w h : Int)
    (entries : List RawEntry) (hw : IsInt32 w) (hh : IsInt32 h)
    (hn : IsInt32 entries.length) (hes : ∀ e ∈ entries, WellFormedRawEntry e) :
    Init floatOfBits catalog (some (encodeRawFile w h entries)) =
      { imageWidth := w
        imageHeight := h
        spriteCount := entries.length
        sprites :=
          entries.foldl (fun acc e => mapInsert acc e.name (e.spriteDef floatOfBits)) [] } := by
  have hlen : ¬ (encodeRawFile w h entries).length ≤ 6 := by
    unfold encodeRawFile
    simp [SPRCAT, length_bytesOfInt32]
  unfold Init
  simp only
  rw [if_neg hlen]
  unfold encodeRawFile
  rw [List.append_assoc, read_append SPRCAT _ 6 rfl]
  simp only
  have hmagic : cstring (overlay SPRCAT (List.replicate 7 0)) = SPRCAT := by decide
  rw [if_neg (not_not.mpr hmagic)]
  simp only [List.append_assoc]
  rw [read_append _ _ 4 (length_bytesOfInt32 w)]
  simp only
  rw [read_append _ _ 4 (length_bytesOfInt32 h)]
  simp only
  rw [read_append _ _ 4 (length_bytesOfInt32 _)]
  simp only
  rw [storeInt_bytesOfInt32 _ w hw, storeInt_bytesOfInt32 _ h hh,
    storeInt_bytesOfInt32 _ _ hn, Int.toNat_ofNat,
    readSprites_raw floatOfBits entries [] hes]

theorem mapFind_eq_none_iff (m : SpriteMap) (name : Name) :
    mapFind m name = none ↔ name ∉ m.map Prod.fst := by
  constructor
  · intro h hmem
    induction m with
    | nil => exact absurd hmem (List.not_mem_nil name)
    | cons kv m ih =>
      obtain ⟨k, v⟩ := kv
      simp only [mapFind] at h
      by_cases hk : k = name
      · rw [if_pos hk] at h
        exact Option.noConfusion h
      · rw [if_neg hk] at h
        simp only [List.map_cons, List.mem_cons] at hmem
        rcases hmem with hm | hm
        · exact hk hm.symm
        · exact ih h hm
  · exact mapFind_eq_none m name

theorem mapFind_mapInsert (m : SpriteMap) (k : Name) (v : SpriteDef) (name : Name) :
    mapFind (mapInsert m k v) name =
      match mapFind m name with
      | some x => some x
      | none => if k = name then some v else none := by
  unfold mapInsert
  cases hk : mapFind m k with
  | none =>
    simp only
    rw [mapFind_append]
    cases mapFind m name with
    | some x => rfl
    | none => rfl
  | some x =>
    simp only
    cases hn : mapFind m name with
    | some y => rfl
    | none =>
      simp only
      rw [if_neg]
      intro heq
      rw [heq, hn] at hk
      exact Option.noConfusion hk

theorem mapFind_foldl_mapInsert (floatOfBits : Nat → ℚ) (entries : List RawEntry) :
    ∀ (m : SpriteMap) (name : Name),
      mapFind (entries.foldl (fun acc e => mapInsert acc e.name (e.spriteDef floatOfBits)) m)
          name =
        match mapFind m name with
        | some x => some x
        | none => (entries.find? (fun e => decide (e.name = name))).map
            (RawEntry.spriteDef floatOfBits) := by
  induction entries with
  | nil =>
    intro m name
    simp only [List.foldl_nil, List.find?_nil, Option.map_none']
    cases mapFind m name <;> rfl
  | cons e es ih =>
    intro m name
    rw [List.foldl_cons, ih, mapFind_mapInsert, List.find?_cons]
    cases mapFind m name with
    | some x => rfl
    | none =>
      simp only
      by_cases hk : e.name = name
      · rw [if_pos hk]
        simp [hk]
      · rw [if_neg hk]
        simp [hk]

theorem keys_mapInsert (m : SpriteMap) (k : Name) (v : SpriteDef) :
    (mapInsert m k v).map Prod.fst =
      if k ∈ m.map Prod.fst then m.map Prod.fst else m.map Prod.fst ++ [k] := by
  unfold mapInsert
  by_cases hk : k ∈ m.map Prod.fst
  · rw [if_pos hk]
    cases hf : mapFind m k with
    | none => exact absurd hk ((mapFind_eq_none_iff m k).mp hf)
    | some x => rfl
  · rw [if_neg hk, mapFind_eq_none m k hk]
    simp

theorem keys_foldl_mapInsert (floatOfBits : Nat → ℚ) (entries : List RawEntry) :
    ∀ (m : SpriteMap), (m.map Prod.fst).Nodup →
      ((entries.foldl (fun acc e => mapInsert acc e.name (e.spriteDef floatOfBits)) m).map
        Prod.fst).Nodup ∧
      ∀ k : Name,
        k ∈ (entries.foldl (fun acc e => mapInsert acc e.name (e.spriteDef floatOfBits)) m).map
            Prod.fst ↔
          k ∈ m.map Prod.fst ∨ k ∈ entries.map RawEntry.name := by
  induction entries with
  | nil =>
    intro m hnd
    exact ⟨hnd, fun k => by simp⟩
  | cons e es ih =>
    intro m hnd
    rw [List.foldl_cons]
    have hkeys := keys_mapInsert m e.name (e.spriteDef floatOfBits)
    have hnd2 : ((mapInsert m e.name (e.spriteDef floatOfBits)).map Prod.fst).Nodup := by
      rw [hkeys]
      split
      · exact hnd
      · rename_i hk
        rw [List.nodup_append]
        refine ⟨hnd, List.nodup_singleton _, ?_⟩
        intro x hx hx2
        rw [List.mem_singleton] at hx2
        exact hk (hx2 ▸ hx)
    obtain ⟨h1, h2⟩ := ih _ hnd2
    refine ⟨h1, ?_⟩
    intro k
    rw [h2 k, hkeys]
    simp only [List.map_cons, List.mem_cons]
    split
    · rename_i hk
      constructor
      · rintro (h | h)
        · exact Or.inl h
        · exact Or.inr (Or.inr h)
      · rintro (h | h | h)
        · exact Or.inl h
        · exact Or.inl (h ▸ hk)
        · exact Or.inr h
    · simp only [List.mem_append, List.mem_singleton]
      tauto

/-- C25. When the definitions of a file with valid magic repeat names, `Init` keeps for
each name the first definition in file order and ignores the later ones: the mapping has
one entry for each distinct name, while `spriteCount` holds the count of the header.  The
key of an entry is the bytes of a 32-byte name field before its first NUL. -/
theorem C25_init_keeps_first_of_repeated_names (floatOfBits : Nat → ℚ) (catalog : Catalog)
    (w h : Int) (entries : List RawEntry) (hw : IsInt32 w) (hh : IsInt32 h)
    (hn : IsInt32 entries.length) (hes : ∀ e ∈ entries, WellFormedRawEntry e) :
    (Init floatOfBits catalog (some (encodeRawFile w h entries))).spriteCount
      = entries.length ∧
    (Init floatOfBits catalog (some (encodeRawFile w h entries))).sprites.length =
      ((entries.map (fun e => cstring e.nameField)).dedup).length ∧
    ((Init floatOfBits catalog (some (encodeRawFile w h entries))).sprites.map
      Prod.fst).Nodup ∧
    (∀ k : Name,
      k ∈ (Init floatOfBits catalog (some (encodeRawFile w h entries))).sprites.map Prod.fst ↔
        ∃ e ∈ entries, cstring e.nameField = k) ∧
    (∀ name : Name,
      mapFind (Init floatOfBits catalog (some (encodeRawFile w h entries))).sprites name =
        (entries.find? (fun e => decide (cstring e.nameField = name))).map
          (fun e =>
            { width := e.width
              height := e.height
              s := floatOfBits e.s
              t := floatOfBits e.t
              p := floatOfBits e.p
              q := floatOfBits e.q })) := by
  rw [Init_encodeRawFile floatOfBits catalog w h entries hw hh hn hes]
  obtain ⟨hnd, hmem⟩ := keys_foldl_mapInsert floatOfBits entries [] List.nodup_nil
  have hmem2 : ∀ k : Name,
      k ∈ (entries.foldl (fun acc e => mapInsert acc e.name (e.spriteDef floatOfBits)) []).map
          Prod.fst ↔ k ∈ entries.map (fun e => cstring e.nameField) := by
    intro k
    rw [hmem k]
    simp [RawEntry.name]
  refine ⟨rfl, ?_, hnd, ?_, ?_⟩
  · have hperm := (List.perm_ext_iff_of_nodup hnd
      (List.nodup_dedup (entries.map (fun e => cstring e.nameField)))).mpr
      (fun k => by rw [hmem2 k, List.mem_dedup])
    have hl := hperm.length_eq
    rw [List.length_map] at hl
    exact hl
  · intro k
    show k ∈ (entries.foldl (fun acc e => mapInsert acc e.name (e.spriteDef floatOfBits)) []).map
      Prod.fst ↔ _
    rw [hmem2 k, List.mem_map]
  · intro name
    exact mapFind_foldl_mapInsert floatOfBits entries [] name

theorem sampleRawEntries_wellFormed : ∀ e ∈ sampleRawEntries, WellFormedRawEntry e := by
  intro e he
  unfold sampleRawEntries at he
  simp only [List.mem_cons, List.mem_singleton, List.not_mem_nil, or_false] at he
  rcases he with h | h | h <;> subst h <;>
    exact ⟨by decide, by decide, by decide, by unfold IsInt32; decide,
      by unfold IsInt32; decide, by decide, by decide, by decide, by decide⟩

/-- Witness of C25: three definitions, the first two both named "a"; the mapping has two
entries and "a" gives the first definition. -/
theorem C25_init_keeps_first_of_repeated_names_witness :
    (IsInt32 64 ∧ IsInt32 32 ∧ IsInt32 sampleRawEntries.length ∧
      ∀ e ∈ sampleRawEntries, WellFormedRawEntry e) ∧
    (Init float32OfBits Create (some (encodeRawFile 64 32 sampleRawEntries))).spriteCount
      = 3 ∧
    (Init float32OfBits Create (some (encodeRawFile 64 32 sampleRawEntries))).sprites.length
      = 2 ∧
    mapFind (Init float32OfBits Create (some (encodeRawFile 64 32 sampleRawEntries))).sprites
        [97] =
      some
        { width := 8
          height := 16
          s := float32OfBits 0
          t := float32OfBits 0
          p := float32OfBits 1056964608
          q := float32OfBits 1065353216 } :=
  have h64 : IsInt32 64 := by unfold IsInt32; decide
  have h32 : IsInt32 32 := by unfold IsInt32; decide
  have h3 : IsInt32 sampleRawEntries.length := by unfold IsInt32; decide
  have h := C25_init_keeps_first_of_repeated_names float32OfBits Create 64 32
    sampleRawEntries h64 h32 h3 sampleRawEntries_wellFormed
  ⟨⟨h64, h32, h3, sampleRawEntries_wellFormed⟩, h.1,
   h.2.1.trans (by decide), h.2.2.2.2 [97]⟩

end Petit2D.Catalog
